import Mathlib

/-!
Shallow embedding of `src/pytorch_lightning/callbacks/batch_size_finder.py`
(the `BatchSizeFinder` callback): the two search strategies
(`_run_power_scaling`, `_run_binary_scaling`), the batch-size adjuster
(`_adjust_batch_size`, `_is_valid_batch_size`), the orchestration-state
snapshot (`_dump_params` / `_reset_params` / `_restore_params`), the facade
(`scale_batch_size`), precondition validation (`setup`) and the
`on_validation_start` lifecycle guard.

External collaborators (trainer loops, checkpoint connector, the
`lightning_getattr`-family helpers, torch dataloaders) are modelled from the
spec where noted; everything else is translated line by line from the source
file.  Machine integers are mapped to `Nat`/`Int`; the `factor : float`
argument of the adjuster only ever receives the exact values `1.0` and `2.0`
in this file, so it is modelled as a rational number.
-/

namespace BatchSizeScaling

/-- Outcome of one trial run of the orchestration loop, as observed by the
search through the `try/except RuntimeError` in the source: a normal return,
an out-of-memory `RuntimeError` (recognised by `is_oom_error`), or any other
(fatal) failure which the source re-raises. -/
inductive TrialOutcome
  | success
  | oom
  | fatal
deriving DecidableEq

/-- The `trainer.state.fn` value: which entry point is running. -/
inductive TrainerFn
  | fit
  | validate
  | test
  | predict
deriving DecidableEq

/-- A logger slot: either a real logger (identified by a tag) or the
`DummyLogger` installed by `_reset_params`. -/
inductive LoggerV
  | real (tag : Nat)
  | dummy
deriving DecidableEq

/-- The search mode; the constructor of the source validates the string
against `SUPPORTED_MODES = ("power", "binsearch")`, so the embedding uses an
enumeration. -/
inductive SearchMode
  | power
  | binsearch
deriving DecidableEq

/-- Modelled from the spec: the two-tier hyperparameter store of the model
(`lightning_getattr`/`lightning_setattr`/`lightning_hasattr` live in
`pytorch_lightning/utilities/parsing.py`, outside `src/`).  The batch-size
field may exist directly on the model (`attrVal`) and/or inside
`model.hparams` (`hparamsVal`); lookup prefers the direct attribute, and a
write updates every tier in which the field exists. -/
structure LitModel where
  attrVal : Option Nat
  hparamsVal : Option Nat
deriving DecidableEq

/-- Modelled from the spec: `lightning_hasattr` — the field exists on the
model or on `model.hparams`. -/
def lightning_hasattr (m : LitModel) : Bool :=
  m.attrVal.isSome || m.hparamsVal.isSome

/-- Modelled from the spec: `lightning_getattr` — the direct attribute wins
over the `hparams` namespace. -/
def lightning_getattr (m : LitModel) : Option Nat :=
  match m.attrVal with
  | some v => some v
  | none => m.hparamsVal

/-- Modelled from the spec: `lightning_setattr` — writes the value into every
tier in which the field already exists. -/
def lightning_setattr (m : LitModel) (v : Nat) : LitModel :=
  { attrVal := if m.attrVal.isSome then some v else none
    hparamsVal := if m.hparamsVal.isSome then some v else none }

/-- The stored batch size; only meaningful when `lightning_hasattr` holds
(the source would raise on a missing attribute, a path excluded by `setup`). -/
def getBS (m : LitModel) : Nat :=
  (lightning_getattr m).getD 0

/-- Modelled from the spec: the narrow dataloader interface the search
consumes — whether `has_len_all_ranks` holds, the dataset length
(`len(dataloader.dataset)`), and the dataloader length (`len(dataloader)`,
the number of batches) as a function `lenFn` of the batch size the loader was
last built with (`builtBS`); `_reset_dataloaders` rebuilds the loader at the
currently stored batch size. -/
structure Dataloader where
  hasLenAllRanks : Bool
  datasetLen : Nat
  lenFn : Nat → Nat
  builtBS : Nat

/-- The value of `len(dataloader)` for the currently built loader. -/
def dlLen (d : Dataloader) : Nat :=
  d.lenFn d.builtBS

/-- The orchestration state visible to the batch-size finder: the model's
hyperparameter store, the phase-relevant dataloaders, and every trainer /
loop field the callback reads or writes.  `loopState` stands for the loop's
`state_dict()` progress snapshot, `modelWeights` for the full model/optimizer
state captured by a checkpoint, and `ckpt` for the single uniquely-named
checkpoint artifact the facade may have saved (`some w` holds the weights
stored in it).  `gcCount` counts invocations of the memory-reclamation hook
and `trialCount` the trial runs, so that theorems can speak about "no trial
executed". -/
structure Trainer where
  fn : TrainerFn
  sanityChecking : Bool
  fastDevRun : Bool
  isGPU : Bool
  model : LitModel
  trainDL : Dataloader
  evalDL : Dataloader
  logger : Option LoggerV
  callbacks : List Nat
  maxSteps : Int
  limitValBatches : Nat
  limitEvalBatches : Nat
  loopVerbose : Option Bool
  loopState : Nat
  restarting : Bool
  progressBarPresent : Bool
  progressBarEnabled : Bool
  modelWeights : Nat
  ckpt : Option Nat
  gcCount : Nat
  trialCount : Nat

/-- Constructor arguments of `BatchSizeFinder.__init__` (mode already
validated). -/
structure FinderCfg where
  mode : SearchMode
  stepsPerTrial : Nat
  initVal : Nat
  maxTrials : Nat

/-- The mutable callback attributes `optimal_batch_size` and `_early_exit`. -/
structure FinderState where
  optimalBatchSize : Nat
  earlyExit : Bool
deriving DecidableEq

/-- `__init__` sets `optimal_batch_size = init_val` and `_early_exit = False`. -/
def mkFinderState (cfg : FinderCfg) : FinderState :=
  { optimalBatchSize := cfg.initVal, earlyExit := false }

/-- The `_dumped_params` dictionary filled by `_dump_params`: optional keys
are modelled as `Option` fields (`none` = key absent). -/
structure DumpedParams where
  logger : Option LoggerV
  callbacks : List Nat
  maxSteps : Option Int
  limitValBatches : Option Nat
  limitEvalBatches : Option Nat
  loopVerbose : Option Bool
  loopStateDict : Nat

/-- Python `int(batch_size * factor)` on a nonnegative batch size and factor
(truncation coincides with the floor there), computed on the exact rational
representation of the factor; `pyIntMul_eq_floor` below proves it equal to
`⌊batch_size * factor⌋` for nonnegative factors. -/
def pyIntMul (bs : Nat) (factor : ℚ) : Nat :=
  bs * factor.num.toNat / factor.den

/-- Modelled from the spec: the memory-reclamation hook `_collect_garbage`,
which calls `garbage_collection_cuda()` only on a GPU-class accelerator; the
embedding counts its invocations. -/
def _collect_garbage (t : Trainer) : Trainer :=
  if t.isGPU then { t with gcCount := t.gcCount + 1 } else t

/-- The dataloader relevant to the current phase: `trainer.train_dataloader`
for fit, `dataloaders[0]` of the running stage otherwise (multiple evaluation
dataloaders are rejected by `setup`). -/
def relevantDL (t : Trainer) : Dataloader :=
  match t.fn with
  | .fit => t.trainDL
  | _ => t.evalDL

/-- Source `_is_valid_batch_size`: `not has_len_all_ranks(...) or
batch_size <= len(dataloader)`. -/
def _is_valid_batch_size (batch_size : Nat) (dataloader : Dataloader) : Bool :=
  !dataloader.hasLenAllRanks || batch_size ≤ dlLen dataloader

/-- Source `_adjust_batch_size(trainer, factor=1.0, value=None)`: reads the
stored batch size, computes `value` or `int(batch_size * factor)`, clamps to
`min(new_size, len(dataloader.dataset))` when the phase-relevant dataloader
has a knowable length that `new_size` exceeds, writes the result back into
the hyperparameter store and reports whether it changed. -/
def _adjust_batch_size (t : Trainer) (factor : ℚ) (value : Option Nat) :
    Trainer × Nat × Bool :=
  let batch_size := getBS t.model
  let new_size :=
    match value with
    | some v => v
    | none => pyIntMul batch_size factor
  let dl := relevantDL t
  let new_size2 :=
    if !(_is_valid_batch_size new_size dl) then min new_size dl.datasetLen
    else new_size
  let changed := decide (new_size2 ≠ batch_size)
  ({ t with model := lightning_setattr t.model new_size2 }, new_size2, changed)

/-- Source `_reset_dataloaders`: rebuild the phase-relevant dataloaders so
they pick up the newly stored batch size (for fit both the train and the val
loaders are reset; the embedding rebuilds the loaders of the phase). -/
def _reset_dataloaders (t : Trainer) : Trainer :=
  match t.fn with
  | .fit => { t with trainDL := { t.trainDL with builtBS := getBS t.model } }
  | _ => { t with evalDL := { t.evalDL with builtBS := getBS t.model } }

/-- Modelled from the spec: the effect one `loop.run()` trial has on the
orchestration loop's progress state and on the model weights, plus the
outcome (success / OOM / fatal) as a function of the batch size being tried.
The outcome classification corresponds to the `try/except RuntimeError` +
`is_oom_error` test in the source. -/
structure TrialOracle where
  outcome : Nat → TrialOutcome
  stepLoop : Nat → Nat
  stepWeights : Nat → Nat

/-- A synthetic OOM threshold `T`: every trial at a batch size `> T` raises
OOM, every trial at a size `≤ T` succeeds. -/
def thresholdOracle (T : Nat) (g w : Nat → Nat) : TrialOracle :=
  { outcome := fun bs => if T < bs then .oom else .success
    stepLoop := g
    stepWeights := w }

/-- Source `_try_loop_run`: reload the loop's progress state from the pristine
dumped copy, clear `restarting`, and run the loop; the run mutates the
progress state and the model weights and yields the oracle's outcome for the
currently stored batch size. -/
def _try_loop_run (o : TrialOracle) (d : DumpedParams) (t : Trainer) :
    Trainer × TrialOutcome :=
  let t1 := { t with loopState := d.loopStateDict, restarting := false }
  let bs := getBS t1.model
  let t2 := { t1 with
    loopState := o.stepLoop t1.loopState
    modelWeights := o.stepWeights t1.modelWeights
    trialCount := t1.trialCount + 1 }
  (t2, o.outcome bs)

/-- Result of a search-strategy loop: normal return of `new_size`, a fatal
(non-OOM) failure re-raised with the trainer state at that point, or fuel
exhaustion of the embedding of the `while True` loop (the source loop of
`_run_binary_scaling` is unbounded; `_run_power_scaling` never produces
`fuelOut`). -/
inductive LoopRes
  | ok (t : Trainer) (newSize : Nat)
  | fatal (t : Trainer)
  | fuelOut (t : Trainer)

/-- The trainer carried by a loop result. -/
def LoopRes.trainer : LoopRes → Trainer
  | .ok t _ => t
  | .fatal t => t
  | .fuelOut t => t

/-- Source `_run_power_scaling` body: `for _ in range(max_trials)` — one
recursion step per remaining iteration; falling off the loop returns the
current `new_size`.  On success the size is doubled via the adjuster and the
dataloaders are reset if it changed (else the ceiling is reached and the loop
breaks); on OOM the adjuster is re-applied with the default `factor=1.0` and
the loop breaks; any other failure is re-raised. -/
def powerScalingLoop (o : TrialOracle) (d : DumpedParams) :
    Nat → Trainer → Nat → LoopRes
  | 0, t, ns => .ok t ns
  | n + 1, t, ns =>
    let t1 := _collect_garbage t
    let tr := _try_loop_run o d t1
    match tr.2 with
    | .success =>
      let adj := _adjust_batch_size tr.1 2 none
      if adj.2.2 then powerScalingLoop o d n (_reset_dataloaders adj.1) adj.2.1
      else .ok adj.1 adj.2.1
    | .oom =>
      let t2 := _collect_garbage tr.1
      let adj := _adjust_batch_size t2 1 none
      .ok adj.1 adj.2.1
    | .fatal => .fatal tr.1

/-- Source `_run_power_scaling`. -/
def _run_power_scaling (cfg : FinderCfg) (o : TrialOracle) (d : DumpedParams)
    (t : Trainer) (new_size : Nat) : LoopRes :=
  powerScalingLoop o d cfg.maxTrials t new_size

/-- Python truthiness of the `high` variable in `_run_binary_scaling`
(`if high:` — `None` and `0` are falsy). -/
def highTruthy : Option Nat → Bool
  | none => false
  | some h => h != 0

/-- Source `_run_binary_scaling` body (`while True`, embedded with fuel):
state is `(new_size, low, high, count)` with `low = 1`, `high = None`,
`count = 0` initially.  On a successful trial the count is bumped and checked
against `max_trials`, `low` is advanced, and either the interval is bisected
(`high` set) or the size doubled (`high` unset), breaking when the adjuster
reports no change; on OOM `high` becomes the failed size, the midpoint is
applied, and the loop breaks once `high - low <= 1`; other failures re-raise. -/
def binaryScalingLoop (cfg : FinderCfg) (o : TrialOracle) (d : DumpedParams) :
    Nat → Trainer → Nat → Nat → Option Nat → Nat → LoopRes
  | 0, t, _, _, _, _ => .fuelOut t
  | fuel + 1, t, ns, low, high, count =>
    let t1 := _collect_garbage t
    let tr := _try_loop_run o d t1
    match tr.2 with
    | .success =>
      let count2 := count + 1
      if cfg.maxTrials < count2 then .ok tr.1 ns
      else
        let low2 := ns
        if highTruthy high then
          let h := high.getD 0
          if h - low2 ≤ 1 then .ok tr.1 ns
          else
            let adj := _adjust_batch_size tr.1 1 (some ((h + low2) / 2))
            if adj.2.2 then
              binaryScalingLoop cfg o d fuel (_reset_dataloaders adj.1) adj.2.1
                low2 high count2
            else .ok adj.1 adj.2.1
        else
          let adj := _adjust_batch_size tr.1 2 none
          if adj.2.2 then
            binaryScalingLoop cfg o d fuel (_reset_dataloaders adj.1) adj.2.1
              low2 high count2
          else .ok adj.1 adj.2.1
    | .oom =>
      let t2 := _collect_garbage tr.1
      let h := ns
      let adj := _adjust_batch_size t2 1 (some ((h + low) / 2))
      let t3 := if adj.2.2 then _reset_dataloaders adj.1 else adj.1
      if h - low ≤ 1 then .ok t3 adj.2.1
      else binaryScalingLoop cfg o d fuel t3 adj.2.1 low (some h) count
    | .fatal => .fatal tr.1

/-- Source `_run_binary_scaling`. -/
def _run_binary_scaling (cfg : FinderCfg) (o : TrialOracle) (d : DumpedParams)
    (fuel : Nat) (t : Trainer) (new_size : Nat) : LoopRes :=
  binaryScalingLoop cfg o d fuel t new_size 1 none 0

/-- Source `_dump_params`: capture logger and callbacks, the phase-relevant
step/batch limits (plus the loop's `verbose` flag when the loop has one), and
a deep copy of the loop's `state_dict()`. -/
def _dump_params (t : Trainer) : DumpedParams :=
  match t.fn with
  | .fit =>
    { logger := t.logger
      callbacks := t.callbacks
      maxSteps := some t.maxSteps
      limitValBatches := some t.limitValBatches
      limitEvalBatches := none
      loopVerbose := none
      loopStateDict := t.loopState }
  | _ =>
    { logger := t.logger
      callbacks := t.callbacks
      maxSteps := none
      limitValBatches := none
      limitEvalBatches := some t.limitEvalBatches
      loopVerbose := t.loopVerbose
      loopStateDict := t.loopState }

/-- Source `_reset_params`: install a `DummyLogger` when a logger was
configured, clear the callback list, and override the phase-relevant limits
with `steps_per_trial` (disabling loop verbosity when present). -/
def _reset_params (cfg : FinderCfg) (t : Trainer) : Trainer :=
  let t1 := { t with
    logger := t.logger.map fun _ => LoggerV.dummy
    callbacks := [] }
  match t1.fn with
  | .fit =>
    { t1 with
      limitValBatches := cfg.stepsPerTrial
      maxSteps := (cfg.stepsPerTrial : Int) }
  | _ =>
    { t1 with
      limitEvalBatches := cfg.stepsPerTrial
      loopVerbose := t1.loopVerbose.map fun _ => false }

/-- Source `_restore_params`: write every captured field back, reload the
loop's progress state from the captured copy, clear `restarting`, and restore
the loop's `verbose` flag when it was dumped. -/
def _restore_params (d : DumpedParams) (t : Trainer) : Trainer :=
  let t1 := { t with logger := d.logger, callbacks := d.callbacks }
  let t2 :=
    match t1.fn with
    | .fit =>
      { t1 with
        maxSteps := d.maxSteps.getD t1.maxSteps
        limitValBatches := d.limitValBatches.getD t1.limitValBatches }
    | _ =>
      { t1 with limitEvalBatches := d.limitEvalBatches.getD t1.limitEvalBatches }
  let t3 := { t2 with loopState := d.loopStateDict, restarting := false }
  match d.loopVerbose with
  | some v => { t3 with loopVerbose := some v }
  | none => t3

/-- Source `if trainer.progress_bar_callback: trainer.progress_bar_callback
.disable() / .enable()`: toggle the progress bar when one is present. -/
def setPB (b : Bool) (t : Trainer) : Trainer :=
  if t.progressBarPresent then { t with progressBarEnabled := b } else t

/-- Outcome of `scale_batch_size`: a normal return, the `_TunerExitException`
control signal (raised after restoration when `_early_exit` is set), the
propagation of a fatal non-OOM trial failure (carrying the trainer state at
the moment the exception leaves the function), or fuel exhaustion of the
binary-search embedding. -/
inductive ScaleOutcome
  | completed (t : Trainer) (f : FinderState)
  | tunerExit (t : Trainer) (f : FinderState)
  | fatalError (t : Trainer) (f : FinderState)
  | fuelOut (t : Trainer)

/-- Source `scale_batch_size`: skip under `fast_dev_run`; otherwise save a
checkpoint of the model/optimizer state, dump the orchestration params, apply
the trial settings, disable the progress bar, seed the search at `init_val`
via the adjuster, run the configured strategy, and on normal loop exit:
reclaim memory, restore the dumped params, re-enable the progress bar,
restore and delete the checkpoint, record the optimal size and possibly raise
the tuner-exit signal.  There is no `try/finally` in the source: a fatal
trial failure propagates without any restoration. -/
def scale_batch_size (cfg : FinderCfg) (o : TrialOracle) (fuel : Nat)
    (f : FinderState) (t : Trainer) : ScaleOutcome :=
  if t.fastDevRun then .completed t f
  else
    let t1 := { t with ckpt := some t.modelWeights }
    let d := _dump_params t1
    let t2 := _reset_params cfg t1
    let t3 := setPB false t2
    let adj0 := _adjust_batch_size t3 1 (some cfg.initVal)
    let res :=
      match cfg.mode with
      | .power => _run_power_scaling cfg o d adj0.1 adj0.2.1
      | .binsearch => _run_binary_scaling cfg o d fuel adj0.1 adj0.2.1
    match res with
    | .fatal te => .fatalError te f
    | .fuelOut te => .fuelOut te
    | .ok t5 newSize =>
      let t6 := _collect_garbage t5
      let t7 := _restore_params d t6
      let t8 := setPB true t7
      let t9 := { t8 with modelWeights := t8.ckpt.getD t8.modelWeights }
      let t10 := { t9 with ckpt := none }
      let f2 := { f with optimalBatchSize := newSize }
      if f2.earlyExit then .tunerExit t10 f2 else .completed t10 f2

/-- The configuration `setup` inspects, beyond the model itself:
`trainer._accelerator_connector.is_distributed`, whether the train-dataloader
source is a module (not passed directly to `.fit()`), and the number of
dataloaders of the running stage. -/
structure SetupCtx where
  isDistributed : Bool
  trainDLFromModule : Bool
  numStageDataloaders : Nat

/-- The `MisconfigurationException`s `setup` can raise, in source order. -/
inductive ConfigError
  | distributedUnsupported
  | directDataloader
  | multipleEvalDataloaders
  | fieldMissing
deriving DecidableEq

/-- Source `setup`: reject distributed strategies, dataloaders passed
directly to `.fit()`, multiple dataloaders outside the fit stage, and a
batch-size field absent from both `model` and `model.hparams` — in that
order.  It performs no trial and creates no checkpoint artifact. -/
def setup (c : SetupCtx) (m : LitModel) (stage : Option TrainerFn) :
    Except ConfigError Unit :=
  if c.isDistributed then .error .distributedUnsupported
  else if !c.trainDLFromModule then .error .directDataloader
  else if stage ≠ some TrainerFn.fit ∧ 1 < c.numStageDataloaders then
    .error .multipleEvalDataloaders
  else if !(lightning_hasattr m) then .error .fieldMissing
  else .ok ()

/-- Result of the callback lifecycle: either `setup` rejected the
configuration — carrying the untouched trainer, since the error propagates
before anything ran — or the search ran. -/
inductive CallbackRes
  | rejected (e : ConfigError) (t : Trainer)
  | ran (r : ScaleOutcome)

/-- The callback's lifecycle on a trainer: `setup` runs first and a raised
configuration error prevents `scale_batch_size` (and hence any trial run or
checkpoint save) from running at all. -/
def setupAndScale (cfg : FinderCfg) (o : TrialOracle) (fuel : Nat)
    (f : FinderState) (c : SetupCtx) (stage : Option TrainerFn) (t : Trainer) :
    CallbackRes :=
  match setup c t.model stage with
  | .error e => .rejected e t
  | .ok _ => .ran (scale_batch_size cfg o fuel f t)

/-- Source `on_validation_start`: `return` without doing anything while
sanity-checking or when the trainer function is not `validate`; otherwise run
the search.  `none` models the early `return` (no state is touched). -/
def on_validation_start (cfg : FinderCfg) (o : TrialOracle) (fuel : Nat)
    (f : FinderState) (t : Trainer) : Option ScaleOutcome :=
  if t.sanityChecking = true ∨ t.fn ≠ TrainerFn.validate then none
  else some (scale_batch_size cfg o fuel f t)

/-! Basic lemmas about the adjuster arithmetic and the hyperparameter store. -/

/-- `pyIntMul` is the floor of `batch_size * factor` for nonnegative factors,
i.e. Python's `int(batch_size * factor)` there. -/
theorem pyIntMul_eq_floor (bs : Nat) (f : ℚ) (hf : 0 ≤ f) :
    pyIntMul bs f = (⌊(bs : ℚ) * f⌋).toNat := by
  have hnum : (0 : ℤ) ≤ f.num := Rat.num_nonneg.mpr hf
  have hmul : (bs : ℚ) * f = ((bs * f.num : ℤ) : ℚ) / ((f.den : ℕ) : ℚ) := by
    conv_lhs => rw [← Rat.num_div_den f]
    push_cast
    ring
  rw [hmul, Rat.floor_intCast_div_natCast]
  have hcast : (bs * f.num : ℤ) = ((bs * f.num.toNat : ℕ) : ℤ) := by
    push_cast [Int.toNat_of_nonneg hnum]
    ring
  rw [hcast, ← Int.natCast_div, Int.toNat_natCast]
  rfl

theorem pyIntMul_two (n : Nat) : pyIntMul n 2 = 2 * n := by
  have h1 : (2 : ℚ).num.toNat = 2 := by decide
  have h2 : (2 : ℚ).den = 1 := by decide
  simp [pyIntMul, h1, h2, Nat.mul_comm]

theorem pyIntMul_one (n : Nat) : pyIntMul n 1 = n := by
  have h1 : (1 : ℚ).num.toNat = 1 := by decide
  have h2 : (1 : ℚ).den = 1 := by decide
  simp [pyIntMul, h1, h2]

theorem hasattr_setattr (m : LitModel) (v : Nat) :
    lightning_hasattr (lightning_setattr m v) = lightning_hasattr m := by
  obtain ⟨a, b⟩ := m
  cases a <;> cases b <;> simp [lightning_hasattr, lightning_setattr]

theorem getBS_setattr (m : LitModel) (v : Nat)
    (h : lightning_hasattr m = true) :
    getBS (lightning_setattr m v) = v := by
  obtain ⟨a, b⟩ := m
  cases a <;> cases b <;>
    simp_all [lightning_hasattr, lightning_setattr, lightning_getattr, getBS]

/-! Frame preservation: the fields of the trainer that the search loops never
touch (they only mutate the model's hyperparameter store, the dataloaders'
built batch size, the loop progress state, the restarting flag, the model
weights and the gc/trial counters). -/

/-- The trainer fields preserved by every operation inside the two search
loops, stated as `b` (after) versus `a` (before). -/
structure LoopFrame (a b : Trainer) : Prop where
  fn : b.fn = a.fn
  sanity : b.sanityChecking = a.sanityChecking
  fastDev : b.fastDevRun = a.fastDevRun
  gpu : b.isGPU = a.isGPU
  logger : b.logger = a.logger
  callbacks : b.callbacks = a.callbacks
  maxSteps : b.maxSteps = a.maxSteps
  limitVal : b.limitValBatches = a.limitValBatches
  limitEval : b.limitEvalBatches = a.limitEvalBatches
  verbose : b.loopVerbose = a.loopVerbose
  pbPresent : b.progressBarPresent = a.progressBarPresent
  pbEnabled : b.progressBarEnabled = a.progressBarEnabled
  ckpt : b.ckpt = a.ckpt
  trainHasLen : b.trainDL.hasLenAllRanks = a.trainDL.hasLenAllRanks
  trainDsLen : b.trainDL.datasetLen = a.trainDL.datasetLen
  trainLenFn : b.trainDL.lenFn = a.trainDL.lenFn
  evalHasLen : b.evalDL.hasLenAllRanks = a.evalDL.hasLenAllRanks
  evalDsLen : b.evalDL.datasetLen = a.evalDL.datasetLen
  evalLenFn : b.evalDL.lenFn = a.evalDL.lenFn

theorem LoopFrame.refl (t : Trainer) : LoopFrame t t := by
  constructor <;> rfl

theorem LoopFrame.trans {a b c : Trainer} (h1 : LoopFrame a b)
    (h2 : LoopFrame b c) : LoopFrame a c := by
  constructor <;> simp only [h1.fn, h1.sanity, h1.fastDev, h1.gpu, h1.logger,
    h1.callbacks, h1.maxSteps, h1.limitVal, h1.limitEval, h1.verbose,
    h1.pbPresent, h1.pbEnabled, h1.ckpt, h1.trainHasLen, h1.trainDsLen,
    h1.trainLenFn, h1.evalHasLen, h1.evalDsLen, h1.evalLenFn, h2.fn,
    h2.sanity, h2.fastDev, h2.gpu, h2.logger, h2.callbacks, h2.maxSteps,
    h2.limitVal, h2.limitEval, h2.verbose, h2.pbPresent, h2.pbEnabled,
    h2.ckpt, h2.trainHasLen, h2.trainDsLen, h2.trainLenFn, h2.evalHasLen,
    h2.evalDsLen, h2.evalLenFn]

theorem frame_gc (t : Trainer) : LoopFrame t (_collect_garbage t) := by
  unfold _collect_garbage
  split <;> (constructor <;> rfl)

theorem frame_try (o : TrialOracle) (d : DumpedParams) (t : Trainer) :
    LoopFrame t (_try_loop_run o d t).1 := by
  constructor <;> rfl

theorem frame_adjust (t : Trainer) (f : ℚ) (v : Option Nat) :
    LoopFrame t (_adjust_batch_size t f v).1 := by
  constructor <;> rfl

theorem frame_reset (t : Trainer) : LoopFrame t (_reset_dataloaders t) := by
  obtain ⟨fn, _, _, _, _, _, _, _, _, _, _, _, _, _, _, _, _, _, _, _, _⟩ := t
  cases fn <;> (constructor <;> rfl)

/-- The frame of `LoopFrame`-related fields of the phase-relevant dataloader
is preserved. -/
theorem relevantDL_static {a b : Trainer} (h : LoopFrame a b) :
    (relevantDL b).hasLenAllRanks = (relevantDL a).hasLenAllRanks ∧
    (relevantDL b).datasetLen = (relevantDL a).datasetLen ∧
    (relevantDL b).lenFn = (relevantDL a).lenFn := by
  unfold relevantDL
  rw [h.fn]
  cases a.fn <;>
    exact ⟨by first | exact h.trainHasLen | exact h.evalHasLen,
      by first | exact h.trainDsLen | exact h.evalDsLen,
      by first | exact h.trainLenFn | exact h.evalLenFn⟩

/-- The phase-relevant dataloader is determined by the `fn`, `trainDL` and
`evalDL` fields. -/
theorem relevantDL_congr {a b : Trainer} (hfn : b.fn = a.fn)
    (ht : b.trainDL = a.trainDL) (he : b.evalDL = a.evalDL) :
    relevantDL b = relevantDL a := by
  unfold relevantDL
  rw [hfn, ht, he]

theorem frame_powerLoop (o : TrialOracle) (d : DumpedParams) :
    ∀ (n : Nat) (t : Trainer) (ns : Nat),
      LoopFrame t (powerScalingLoop o d n t ns).trainer
  | 0, t, ns => LoopFrame.refl t
  | n + 1, t, ns => by
    have hgc := frame_gc t
    have htry := frame_try o d (_collect_garbage t)
    simp only [powerScalingLoop]
    cases hout : (_try_loop_run o d (_collect_garbage t)).2 with
    | success =>
      have hadj := frame_adjust (_try_loop_run o d (_collect_garbage t)).1 2 none
      by_cases hch :
          (_adjust_batch_size (_try_loop_run o d (_collect_garbage t)).1 2
            none).2.2 = true
      · simp only [hch, if_true]
        have hres := frame_reset
          (_adjust_batch_size (_try_loop_run o d (_collect_garbage t)).1 2
            none).1
        have hrec := frame_powerLoop o d n
          (_reset_dataloaders
            (_adjust_batch_size (_try_loop_run o d (_collect_garbage t)).1 2
              none).1)
          (_adjust_batch_size (_try_loop_run o d (_collect_garbage t)).1 2
            none).2.1
        exact ((((hgc.trans htry).trans hadj).trans hres).trans hrec)
      · simp only [hch, if_false, Bool.false_eq_true]
        exact (hgc.trans htry).trans hadj
    | oom =>
      have hgc2 := frame_gc (_try_loop_run o d (_collect_garbage t)).1
      have hadj := frame_adjust
        (_collect_garbage (_try_loop_run o d (_collect_garbage t)).1) 1 none
      exact ((hgc.trans htry).trans hgc2).trans hadj
    | fatal => exact hgc.trans htry

theorem frame_binLoop (cfg : FinderCfg) (o : TrialOracle) (d : DumpedParams) :
    ∀ (fuel : Nat) (t : Trainer) (ns low : Nat) (high : Option Nat)
      (count : Nat),
      LoopFrame t (binaryScalingLoop cfg o d fuel t ns low high count).trainer
  | 0, t, _, _, _, _ => LoopFrame.refl t
  | fuel + 1, t, ns, low, high, count => by
    have base := (frame_gc t).trans (frame_try o d (_collect_garbage t))
    simp only [binaryScalingLoop]
    cases hout : (_try_loop_run o d (_collect_garbage t)).2 with
    | fatal => exact base
    | success =>
      by_cases hcnt : cfg.maxTrials < count + 1
      · rw [if_pos hcnt]; exact base
      · rw [if_neg hcnt]
        by_cases hht : highTruthy high = true
        · rw [if_pos hht]
          by_cases hiv : high.getD 0 - ns ≤ 1
          · rw [if_pos hiv]; exact base
          · rw [if_neg hiv]
            have hadj := frame_adjust
              (_try_loop_run o d (_collect_garbage t)).1 1
              (some ((high.getD 0 + ns) / 2))
            by_cases hch :
                (_adjust_batch_size (_try_loop_run o d (_collect_garbage t)).1
                  1 (some ((high.getD 0 + ns) / 2))).2.2 = true
            · rw [if_pos hch]
              exact ((base.trans hadj).trans (frame_reset _)).trans
                (frame_binLoop cfg o d fuel _ _ _ _ _)
            · rw [if_neg hch]; exact base.trans hadj
        · rw [if_neg hht]
          have hadj := frame_adjust
            (_try_loop_run o d (_collect_garbage t)).1 2 none
          by_cases hch :
              (_adjust_batch_size (_try_loop_run o d (_collect_garbage t)).1 2
                none).2.2 = true
          · rw [if_pos hch]
            exact ((base.trans hadj).trans (frame_reset _)).trans
              (frame_binLoop cfg o d fuel _ _ _ _ _)
          · rw [if_neg hch]; exact base.trans hadj
    | oom =>
      have base2 := base.trans
        (frame_gc (_try_loop_run o d (_collect_garbage t)).1)
      have hadj := frame_adjust
        (_collect_garbage (_try_loop_run o d (_collect_garbage t)).1) 1
        (some ((ns + low) / 2))
      have base3 := base2.trans hadj
      have base4 :
          LoopFrame t
            (if (_adjust_batch_size
                  (_collect_garbage (_try_loop_run o d (_collect_garbage t)).1)
                  1 (some ((ns + low) / 2))).2.2 = true then
              _reset_dataloaders
                (_adjust_batch_size
                  (_collect_garbage
                    (_try_loop_run o d (_collect_garbage t)).1)
                  1 (some ((ns + low) / 2))).1
            else
              (_adjust_batch_size
                (_collect_garbage (_try_loop_run o d (_collect_garbage t)).1)
                1 (some ((ns + low) / 2))).1) := by
        split
        · exact base3.trans (frame_reset _)
        · exact base3
      by_cases hiv : ns - low ≤ 1
      · rw [if_pos hiv]; exact base4
      · rw [if_neg hiv]
        exact base4.trans (frame_binLoop cfg o d fuel _ _ _ _ _)

/-! Characterisation lemmas for the adjuster. -/

theorem adjust_model_eq (t : Trainer) (f : ℚ) (v : Option Nat) :
    (_adjust_batch_size t f v).1.model =
      lightning_setattr t.model (_adjust_batch_size t f v).2.1 := rfl

theorem adjust_hasattr (t : Trainer) (f : ℚ) (v : Option Nat) :
    lightning_hasattr (_adjust_batch_size t f v).1.model =
      lightning_hasattr t.model := by
  rw [adjust_model_eq]; exact hasattr_setattr _ _

theorem adjust_getBS (t : Trainer) (f : ℚ) (v : Option Nat)
    (h : lightning_hasattr t.model = true) :
    getBS (_adjust_batch_size t f v).1.model = (_adjust_batch_size t f v).2.1 := by
  rw [adjust_model_eq]; exact getBS_setattr _ _ h

theorem adjust_newSize_eq (t : Trainer) (f : ℚ) (v : Option Nat) :
    (_adjust_batch_size t f v).2.1 =
      (let raw :=
        match v with
        | some x => x
        | none => pyIntMul (getBS t.model) f
      if !(_is_valid_batch_size raw (relevantDL t)) then
        min raw (relevantDL t).datasetLen
      else raw) := rfl

theorem adjust_changed_eq (t : Trainer) (f : ℚ) (v : Option Nat) :
    (_adjust_batch_size t f v).2.2 =
      decide ((_adjust_batch_size t f v).2.1 ≠ getBS t.model) := rfl

theorem adjust_changed_false (t : Trainer) (f : ℚ) (v : Option Nat)
    (h : (_adjust_batch_size t f v).2.2 = false) :
    (_adjust_batch_size t f v).2.1 = getBS t.model := by
  have h2 : decide ((_adjust_batch_size t f v).2.1 ≠ getBS t.model) = false := by
    rw [← adjust_changed_eq]; exact h
  simpa using h2

theorem adjust_le_value (t : Trainer) (f : ℚ) (x : Nat) :
    (_adjust_batch_size t f (some x)).2.1 ≤ x := by
  rw [adjust_newSize_eq]
  dsimp only
  split
  · exact Nat.min_le_left _ _
  · exact le_rfl

theorem adjust_le_double (t : Trainer) :
    (_adjust_batch_size t 2 none).2.1 ≤ 2 * getBS t.model := by
  rw [adjust_newSize_eq]
  dsimp only
  rw [pyIntMul_two]
  split
  · exact Nat.min_le_left _ _
  · exact le_rfl

/-- Under a knowable length bounded by the dataset length, the source clamp
`if not valid: min(new, datasetLen)` computes exactly `min raw datasetLen`. -/
theorem clamp_min_eq (d : Dataloader) (raw : Nat)
    (hL : d.hasLenAllRanks = true) (hlen : dlLen d ≤ d.datasetLen) :
    (if !(_is_valid_batch_size raw d) then min raw d.datasetLen else raw) =
      min raw d.datasetLen := by
  by_cases hv : _is_valid_batch_size raw d = true
  · rw [hv]
    simp only [Bool.not_true, Bool.false_eq_true, if_false]
    have hle : raw ≤ dlLen d := by
      simpa [_is_valid_batch_size, hL] using hv
    exact (Nat.min_eq_left (le_trans hle hlen)).symm
  · rw [Bool.not_eq_true] at hv
    rw [hv]
    simp

/-- Under a knowable length bounded by the dataset length, the adjuster's
result is exactly `min raw datasetLen`. -/
theorem adjust_min_eq (t : Trainer) (f : ℚ) (v : Option Nat)
    (hL : (relevantDL t).hasLenAllRanks = true)
    (hlen : dlLen (relevantDL t) ≤ (relevantDL t).datasetLen) :
    (_adjust_batch_size t f v).2.1 =
      min
        (match v with
        | some x => x
        | none => pyIntMul (getBS t.model) f)
        (relevantDL t).datasetLen := by
  rw [adjust_newSize_eq]
  exact clamp_min_eq (relevantDL t) _ hL hlen

theorem reset_model_eq (t : Trainer) : (_reset_dataloaders t).model = t.model := by
  obtain ⟨fn, _, _, _, _, _, _, _, _, _, _, _, _, _, _, _, _, _, _, _, _⟩ := t
  cases fn <;> rfl

/-! Projections on `ScaleOutcome` used to state the claims. -/

/-- The optimal batch size recorded by a run that returned normally (directly
or through the tuner-exit control signal). -/
def outcomeOptimal : ScaleOutcome → Option Nat
  | .completed _ f => some f.optimalBatchSize
  | .tunerExit _ f => some f.optimalBatchSize
  | .fatalError _ _ => none
  | .fuelOut _ => none

/-- The trainer state at the moment a fatal (non-OOM) trial failure leaves
`scale_batch_size`. -/
def fatalTrainer : ScaleOutcome → Option Trainer
  | .fatalError t _ => some t
  | _ => none

/-! Field-level facts about the snapshot manager and the facade pipeline. -/

theorem setPB_facts (b : Bool) (t : Trainer) :
    (setPB b t).fn = t.fn ∧ (setPB b t).logger = t.logger ∧
    (setPB b t).callbacks = t.callbacks ∧ (setPB b t).maxSteps = t.maxSteps ∧
    (setPB b t).limitValBatches = t.limitValBatches ∧
    (setPB b t).limitEvalBatches = t.limitEvalBatches ∧
    (setPB b t).loopVerbose = t.loopVerbose ∧
    (setPB b t).loopState = t.loopState ∧
    (setPB b t).restarting = t.restarting ∧ (setPB b t).model = t.model ∧
    (setPB b t).trainDL = t.trainDL ∧ (setPB b t).evalDL = t.evalDL ∧
    (setPB b t).ckpt = t.ckpt ∧ (setPB b t).modelWeights = t.modelWeights ∧
    (setPB b t).progressBarPresent = t.progressBarPresent ∧
    (setPB b t).fastDevRun = t.fastDevRun ∧ (setPB b t).isGPU = t.isGPU ∧
    (setPB b t).sanityChecking = t.sanityChecking := by
  unfold setPB
  split <;>
    exact ⟨rfl, rfl, rfl, rfl, rfl, rfl, rfl, rfl, rfl, rfl, rfl, rfl, rfl,
      rfl, rfl, rfl, rfl, rfl⟩

theorem gc_model (t : Trainer) : (_collect_garbage t).model = t.model := by
  unfold _collect_garbage
  split <;> rfl

theorem dump_params_facts (t : Trainer) :
    (_dump_params t).logger = t.logger ∧
    (_dump_params t).callbacks = t.callbacks ∧
    (_dump_params t).loopStateDict = t.loopState ∧
    (_dump_params t).maxSteps =
      (match t.fn with | .fit => some t.maxSteps | _ => none) ∧
    (_dump_params t).limitValBatches =
      (match t.fn with | .fit => some t.limitValBatches | _ => none) ∧
    (_dump_params t).limitEvalBatches =
      (match t.fn with | .fit => none | _ => some t.limitEvalBatches) ∧
    (_dump_params t).loopVerbose =
      (match t.fn with | .fit => none | _ => t.loopVerbose) := by
  obtain ⟨fn, _, _, _, _, _, _, _, _, _, _, _, _, _, _, _, _, _, _, _, _⟩ := t
  cases fn <;> exact ⟨rfl, rfl, rfl, rfl, rfl, rfl, rfl⟩

theorem reset_params_facts (cfg : FinderCfg) (t : Trainer) :
    (_reset_params cfg t).fn = t.fn ∧
    (_reset_params cfg t).callbacks = [] ∧
    (_reset_params cfg t).logger = t.logger.map (fun _ => LoggerV.dummy) ∧
    (_reset_params cfg t).model = t.model ∧
    (_reset_params cfg t).trainDL = t.trainDL ∧
    (_reset_params cfg t).evalDL = t.evalDL ∧
    (_reset_params cfg t).maxSteps =
      (match t.fn with | .fit => (cfg.stepsPerTrial : Int) | _ => t.maxSteps) ∧
    (_reset_params cfg t).limitValBatches =
      (match t.fn with | .fit => cfg.stepsPerTrial | _ => t.limitValBatches) ∧
    (_reset_params cfg t).limitEvalBatches =
      (match t.fn with | .fit => t.limitEvalBatches | _ => cfg.stepsPerTrial) ∧
    (_reset_params cfg t).loopVerbose =
      (match t.fn with
      | .fit => t.loopVerbose
      | _ => t.loopVerbose.map fun _ => false) ∧
    (_reset_params cfg t).loopState = t.loopState ∧
    (_reset_params cfg t).restarting = t.restarting ∧
    (_reset_params cfg t).progressBarPresent = t.progressBarPresent ∧
    (_reset_params cfg t).ckpt = t.ckpt ∧
    (_reset_params cfg t).modelWeights = t.modelWeights ∧
    (_reset_params cfg t).fastDevRun = t.fastDevRun ∧
    (_reset_params cfg t).isGPU = t.isGPU ∧
    (_reset_params cfg t).sanityChecking = t.sanityChecking := by
  obtain ⟨fn, _, _, _, _, _, _, _, _, _, _, _, _, _, _, _, _, _, _, _, _⟩ := t
  cases fn <;>
    exact ⟨rfl, rfl, rfl, rfl, rfl, rfl, rfl, rfl, rfl, rfl, rfl, rfl, rfl,
      rfl, rfl, rfl, rfl, rfl⟩

theorem restore_params_facts (d : DumpedParams) (t : Trainer) :
    (_restore_params d t).logger = d.logger ∧
    (_restore_params d t).callbacks = d.callbacks ∧
    (_restore_params d t).loopState = d.loopStateDict ∧
    (_restore_params d t).restarting = false ∧
    (_restore_params d t).maxSteps =
      (match t.fn with
      | .fit => d.maxSteps.getD t.maxSteps
      | _ => t.maxSteps) ∧
    (_restore_params d t).limitValBatches =
      (match t.fn with
      | .fit => d.limitValBatches.getD t.limitValBatches
      | _ => t.limitValBatches) ∧
    (_restore_params d t).limitEvalBatches =
      (match t.fn with
      | .fit => t.limitEvalBatches
      | _ => d.limitEvalBatches.getD t.limitEvalBatches) ∧
    (_restore_params d t).loopVerbose =
      (match d.loopVerbose with
      | some v => some v
      | none => t.loopVerbose) ∧
    (_restore_params d t).progressBarPresent = t.progressBarPresent ∧
    (_restore_params d t).ckpt = t.ckpt ∧
    (_restore_params d t).modelWeights = t.modelWeights ∧
    (_restore_params d t).fn = t.fn := by
  obtain ⟨dlog, dcb, dms, dlv, dle, dvb, dsd⟩ := d
  obtain ⟨fn, _, _, _, _, _, _, _, _, _, _, _, _, _, _, _, _, _, _, _, _⟩ := t
  cases fn <;> cases dvb <;>
    exact ⟨rfl, rfl, rfl, rfl, rfl, rfl, rfl, rfl, rfl, rfl, rfl, rfl⟩

/-- With an oracle whose every trial fails fatally, the power loop re-raises
out of its first iteration. -/
theorem powerLoop_fatal (o : TrialOracle) (d : DumpedParams)
    (hfatal : ∀ bs, o.outcome bs = .fatal) (n : Nat) (t : Trainer) (ns : Nat) :
    powerScalingLoop o d (n + 1) t ns =
      .fatal (_try_loop_run o d (_collect_garbage t)).1 := by
  simp only [powerScalingLoop]
  rw [show (_try_loop_run o d (_collect_garbage t)).2 =
    o.outcome (getBS (_collect_garbage t).model) from rfl, hfatal]

/-- With an oracle whose every trial fails fatally, the binary loop re-raises
out of its first iteration. -/
theorem binLoop_fatal (cfg : FinderCfg) (o : TrialOracle) (d : DumpedParams)
    (hfatal : ∀ bs, o.outcome bs = .fatal) (fuel : Nat) (t : Trainer)
    (ns low : Nat) (high : Option Nat) (count : Nat) :
    binaryScalingLoop cfg o d (fuel + 1) t ns low high count =
      .fatal (_try_loop_run o d (_collect_garbage t)).1 := by
  simp only [binaryScalingLoop]
  rw [show (_try_loop_run o d (_collect_garbage t)).2 =
    o.outcome (getBS (_collect_garbage t).model) from rfl, hfatal]

/-- Composite facts about the facade's restoration pipeline: starting from
the pre-search trainer `t`, if the search loop turned the trial-configured
trainer into `t5` (only loop-frame fields preserved), then after
`_restore_params` with the dumped snapshot and the progress-bar re-enable,
every dumped orchestration field is back at its pre-search value, the
restarting flag is cleared, and the checkpoint slot still holds the
pre-search weights. -/
theorem restore_pipeline_facts (cfg : FinderCfg) (t t5 : Trainer)
    (hframe :
      LoopFrame (setPB false (_reset_params cfg { t with ckpt := some t.modelWeights })) t5) :
    (setPB true
        (_restore_params (_dump_params { t with ckpt := some t.modelWeights })
          (_collect_garbage t5))).logger = t.logger ∧
    (setPB true
        (_restore_params (_dump_params { t with ckpt := some t.modelWeights })
          (_collect_garbage t5))).callbacks = t.callbacks ∧
    (setPB true
        (_restore_params (_dump_params { t with ckpt := some t.modelWeights })
          (_collect_garbage t5))).maxSteps = t.maxSteps ∧
    (setPB true
        (_restore_params (_dump_params { t with ckpt := some t.modelWeights })
          (_collect_garbage t5))).limitValBatches = t.limitValBatches ∧
    (setPB true
        (_restore_params (_dump_params { t with ckpt := some t.modelWeights })
          (_collect_garbage t5))).limitEvalBatches = t.limitEvalBatches ∧
    (setPB true
        (_restore_params (_dump_params { t with ckpt := some t.modelWeights })
          (_collect_garbage t5))).loopVerbose = t.loopVerbose ∧
    (setPB true
        (_restore_params (_dump_params { t with ckpt := some t.modelWeights })
          (_collect_garbage t5))).loopState = t.loopState ∧
    (setPB true
        (_restore_params (_dump_params { t with ckpt := some t.modelWeights })
          (_collect_garbage t5))).restarting = false ∧
    (setPB true
        (_restore_params (_dump_params { t with ckpt := some t.modelWeights })
          (_collect_garbage t5))).ckpt = some t.modelWeights := by
  set t1 : Trainer := { t with ckpt := some t.modelWeights } with ht1
  set d := _dump_params t1 with hd
  set t2 := _reset_params cfg t1 with ht2
  set t3 := setPB false t2 with ht3
  set t6 := _collect_garbage t5 with ht6
  set t7 := _restore_params d t6 with ht7
  set t8 := setPB true t7 with ht8
  obtain ⟨d1, d2, d3, d4, d5, d6, d7⟩ := dump_params_facts t1
  obtain ⟨s1, s2, s3, s4, s5, s6, s7, s8, s9, s10, s11, s12, s13, s14, s15,
    s16, s17, s18⟩ := reset_params_facts cfg t1
  obtain ⟨q1, q2, q3, q4, q5, q6, q7, q8, q9, q10, q11, q12, q13, q14, q15,
    q16, q17, q18⟩ := setPB_facts false t2
  obtain ⟨p1, p2, p3, p4, p5, p6, p7, p8, p9, p10, p11, p12, p13, p14, p15,
    p16, p17, p18⟩ := setPB_facts true t7
  obtain ⟨r1, r2, r3, r4, r5, r6, r7, r8, r9, r10, r11, r12⟩ :=
    restore_params_facts d t6
  have hframe6 : LoopFrame t3 t6 := by
    rw [ht6]; exact hframe.trans (frame_gc t5)
  have hfn1 : t1.fn = t.fn := by rw [ht1]
  have hfn3 : t3.fn = t.fn := by rw [q1, s1, hfn1]
  have hfn6 : t6.fn = t.fn := by rw [hframe6.fn, hfn3]
  have hlogger : t8.logger = t.logger := by
    rw [p2, r1, d1, ht1]
  have hcb : t8.callbacks = t.callbacks := by
    rw [p3, r2, d2, ht1]
  have hms1 : t1.maxSteps = t.maxSteps := by rw [ht1]
  have hlv1 : t1.limitValBatches = t.limitValBatches := by rw [ht1]
  have hle1 : t1.limitEvalBatches = t.limitEvalBatches := by rw [ht1]
  have hvb1 : t1.loopVerbose = t.loopVerbose := by rw [ht1]
  have hls1 : t1.loopState = t.loopState := by rw [ht1]
  have hms : t8.maxSteps = t.maxSteps := by
    rw [p4, r5, hfn6]
    cases hfn : t.fn
    · rw [d4, hfn1, hfn]
      simp [hms1]
    all_goals
      rw [hframe6.maxSteps, q4, s7, hfn1, hfn, hms1]
  have hlv : t8.limitValBatches = t.limitValBatches := by
    rw [p5, r6, hfn6]
    cases hfn : t.fn
    · rw [d5, hfn1, hfn]
      simp [hlv1]
    all_goals
      rw [hframe6.limitVal, q5, s8, hfn1, hfn, hlv1]
  have hle : t8.limitEvalBatches = t.limitEvalBatches := by
    rw [p6, r7, hfn6]
    cases hfn : t.fn
    · rw [hframe6.limitEval, q6, s9, hfn1, hfn, hle1]
    all_goals
      rw [d6, hfn1, hfn]
      simp [hle1]
  have hvb : t8.loopVerbose = t.loopVerbose := by
    rw [p7, r8, d7, hfn1]
    cases hfn : t.fn
    · rw [hframe6.verbose, q7, s10, hfn1, hfn, hvb1]
    all_goals
      rw [hvb1]
      cases hv : t.loopVerbose
      · rw [hframe6.verbose, q7, s10, hfn1, hfn, hvb1, hv]
        rfl
      · rfl
  have hls : t8.loopState = t.loopState := by
    rw [p8, r3, d3, hls1]
  have hrs : t8.restarting = false := by
    rw [p9, r4]
  have hck : t8.ckpt = some t.modelWeights := by
    rw [p13, r10, hframe6.ckpt, q13, s14, ht1]
  exact ⟨hlogger, hcb, hms, hlv, hle, hvb, hls, hrs, hck⟩

/-- Any normal completion of `scale_batch_size` (direct or through the
tuner-exit signal) ends with every dumped orchestration field equal to its
pre-search value, the restarting flag cleared, the checkpoint artifact
removed, and the model weights restored from it. -/
theorem scale_final_facts (cfg : FinderCfg) (o : TrialOracle) (fuel : Nat)
    (f : FinderState) (t : Trainer) (hfd : t.fastDevRun = false) :
    ∀ t' f',
      scale_batch_size cfg o fuel f t = .completed t' f' ∨
        scale_batch_size cfg o fuel f t = .tunerExit t' f' →
      t'.logger = t.logger ∧ t'.callbacks = t.callbacks ∧
      t'.maxSteps = t.maxSteps ∧ t'.limitValBatches = t.limitValBatches ∧
      t'.limitEvalBatches = t.limitEvalBatches ∧
      t'.loopVerbose = t.loopVerbose ∧ t'.loopState = t.loopState ∧
      t'.restarting = false ∧ t'.ckpt = none ∧
      t'.modelWeights = t.modelWeights := by
  intro t' f' hor
  simp only [scale_batch_size] at hor
  rw [if_neg (by simp [hfd])] at hor
  set t1 : Trainer := { t with ckpt := some t.modelWeights } with ht1
  set d := _dump_params t1 with hd
  set t2 := _reset_params cfg t1 with ht2
  set t3 := setPB false t2 with ht3
  set adj0 := _adjust_batch_size t3 1 (some cfg.initVal) with hadj0
  set res :=
    (match cfg.mode with
    | SearchMode.power => _run_power_scaling cfg o d adj0.1 adj0.2.1
    | SearchMode.binsearch => _run_binary_scaling cfg o d fuel adj0.1 adj0.2.1)
    with hres
  have hframe : LoopFrame t3 res.trainer := by
    rw [hres]
    have h1 : LoopFrame t3 adj0.1 := by
      rw [hadj0]; exact frame_adjust t3 1 (some cfg.initVal)
    cases hm : cfg.mode
    · exact h1.trans (frame_powerLoop o d cfg.maxTrials adj0.1 adj0.2.1)
    · exact h1.trans (frame_binLoop cfg o d fuel adj0.1 adj0.2.1 1 none 0)
  clear_value res
  cases res with
  | fatal te => rcases hor with h | h <;> simp at h
  | fuelOut te => rcases hor with h | h <;> simp at h
  | ok t5 ns =>
    dsimp only at hor
    simp only [LoopRes.trainer] at hframe
    have hpipe := restore_pipeline_facts cfg t t5 (by
      rw [ht3, ht2, ht1] at hframe
      exact hframe)
    rw [← ht1, ← hd] at hpipe
    set t6 := _collect_garbage t5 with ht6
    set t7 := _restore_params d t6 with ht7
    set t8 := setPB true t7 with ht8
    obtain ⟨hlogger, hcb, hms, hlv, hle, hvb, hls, hrs, hck⟩ := hpipe
    have hgoal :
        ({ { t8 with modelWeights := t8.ckpt.getD t8.modelWeights } with
            ckpt := none } : Trainer).logger = t.logger ∧
        ({ { t8 with modelWeights := t8.ckpt.getD t8.modelWeights } with
            ckpt := none } : Trainer).callbacks = t.callbacks ∧
        ({ { t8 with modelWeights := t8.ckpt.getD t8.modelWeights } with
            ckpt := none } : Trainer).maxSteps = t.maxSteps ∧
        ({ { t8 with modelWeights := t8.ckpt.getD t8.modelWeights } with
            ckpt := none } : Trainer).limitValBatches = t.limitValBatches ∧
        ({ { t8 with modelWeights := t8.ckpt.getD t8.modelWeights } with
            ckpt := none } : Trainer).limitEvalBatches = t.limitEvalBatches ∧
        ({ { t8 with modelWeights := t8.ckpt.getD t8.modelWeights } with
            ckpt := none } : Trainer).loopVerbose = t.loopVerbose ∧
        ({ { t8 with modelWeights := t8.ckpt.getD t8.modelWeights } with
            ckpt := none } : Trainer).loopState = t.loopState ∧
        ({ { t8 with modelWeights := t8.ckpt.getD t8.modelWeights } with
            ckpt := none } : Trainer).restarting = false ∧
        ({ { t8 with modelWeights := t8.ckpt.getD t8.modelWeights } with
            ckpt := none } : Trainer).ckpt = none ∧
        ({ { t8 with modelWeights := t8.ckpt.getD t8.modelWeights } with
            ckpt := none } : Trainer).modelWeights = t.modelWeights := by
      refine ⟨hlogger, hcb, hms, hlv, hle, hvb, hls, hrs, rfl, ?_⟩
      show t8.ckpt.getD t8.modelWeights = t.modelWeights
      rw [hck]
      rfl
    rcases hor with h | h
    · by_cases he : f.earlyExit = true
      · rw [if_pos he] at h
        exact absurd h (by simp)
      · rw [if_neg he] at h
        injection h with h1 h2
        subst h1
        exact hgoal
    · by_cases he : f.earlyExit = true
      · rw [if_pos he] at h
        injection h with h1 h2
        subst h1
        exact hgoal
      · rw [if_neg he] at h
        exact absurd h (by simp)

/-- Case analysis of the source clamp: it fires (to `min raw datasetLen`)
exactly when the dataloader length is knowable and exceeded. -/
theorem clamp_cases (d : Dataloader) (raw : Nat) :
    (d.hasLenAllRanks = true ∧ dlLen d < raw →
      (if !(_is_valid_batch_size raw d) then min raw d.datasetLen else raw) =
        min raw d.datasetLen) ∧
    (¬(d.hasLenAllRanks = true ∧ dlLen d < raw) →
      (if !(_is_valid_batch_size raw d) then min raw d.datasetLen else raw) =
        raw) := by
  constructor
  · rintro ⟨hL, hlt⟩
    have hv : _is_valid_batch_size raw d = false := by
      simp only [_is_valid_batch_size, hL, Bool.not_true, Bool.false_or,
        decide_eq_false_iff_not, not_le]
      exact hlt
    rw [hv]
    rfl
  · intro hn
    have hv : _is_valid_batch_size raw d = true := by
      unfold _is_valid_batch_size
      cases hL : d.hasLenAllRanks
      · rfl
      · have hnl : ¬ dlLen d < raw := fun hlt => hn ⟨hL, hlt⟩
        simp [Nat.not_lt.mp hnl]
    rw [hv]
    rfl

/-- Bool check: the dumped orchestration fields of `t` equal those of `pre`
and the restarting flag is cleared. -/
def orchRestored (pre t : Trainer) : Bool :=
  decide (t.logger = pre.logger) && decide (t.callbacks = pre.callbacks) &&
    decide (t.maxSteps = pre.maxSteps) &&
    decide (t.limitValBatches = pre.limitValBatches) &&
    decide (t.limitEvalBatches = pre.limitEvalBatches) &&
    decide (t.loopVerbose = pre.loopVerbose) &&
    decide (t.loopState = pre.loopState) && decide (t.restarting = false)

/-- Bool check on a search outcome: on every normal completion the
orchestration snapshot is restored (other outcomes are not claimed here). -/
def restoredAfter (pre : Trainer) : ScaleOutcome → Bool
  | .completed t _ => orchRestored pre t
  | .tunerExit t _ => orchRestored pre t
  | .fatalError _ _ => true
  | .fuelOut _ => true

/-- Bool check: the checkpoint artifact is gone and the weights are back. -/
def ckptCleared (pre t : Trainer) : Bool :=
  t.ckpt.isNone && decide (t.modelWeights = pre.modelWeights)

/-- Bool check on a search outcome: on every normal completion the checkpoint
artifact no longer exists and the model weights were restored from it. -/
def ckptAfter (pre : Trainer) : ScaleOutcome → Bool
  | .completed t _ => ckptCleared pre t
  | .tunerExit t _ => ckptCleared pre t
  | .fatalError _ _ => true
  | .fuelOut _ => true

def sampleDL : Dataloader :=
  { hasLenAllRanks := true, datasetLen := 10000, lenFn := fun _ => 5000,
    builtBS := 16 }

def sampleTrainer : Trainer :=
  { fn := .fit, sanityChecking := false, fastDevRun := false, isGPU := true,
    model := ⟨some 16, none⟩, trainDL := sampleDL, evalDL := sampleDL,
    logger := some (.real 1), callbacks := [3], maxSteps := -1,
    limitValBatches := 7, limitEvalBatches := 9, loopVerbose := none,
    loopState := 42, restarting := false, progressBarPresent := true,
    progressBarEnabled := true, modelWeights := 100, ckpt := none,
    gcCount := 0, trialCount := 0 }

/-- A trial oracle whose every trial fails with a fatal, non-OOM error. -/
def fatalOracle : TrialOracle :=
  { outcome := fun _ => .fatal, stepLoop := id, stepWeights := id }

/-- C6: For every valid configuration (one on which the search actually runs,
i.e. not a fast-dev-run), after a search completes normally (success or
OOM-bounded termination, including the tuner-exit path) the dumped
orchestration fields — logger, callback list, step/batch limits, loop verbose
flag and the loop's progress state — equal their pre-search values exactly,
and the loop's restarting flag is cleared. -/
theorem C6_orchestration_restored (cfg : FinderCfg) (o : TrialOracle)
    (fuel : Nat) (f : FinderState) (t : Trainer)
    (hfd : t.fastDevRun = false) :
    restoredAfter t (scale_batch_size cfg o fuel f t) = true := by
  rcases hsc : scale_batch_size cfg o fuel f t with ⟨t', f'⟩ | ⟨t', f'⟩ |
    ⟨t', f'⟩ | ⟨t'⟩
  · obtain ⟨h1, h2, h3, h4, h5, h6, h7, h8, _, _⟩ :=
      scale_final_facts cfg o fuel f t hfd t' f' (Or.inl hsc)
    simp [restoredAfter, orchRestored, h1, h2, h3, h4, h5, h6, h7, h8]
  · obtain ⟨h1, h2, h3, h4, h5, h6, h7, h8, _, _⟩ :=
      scale_final_facts cfg o fuel f t hfd t' f' (Or.inr hsc)
    simp [restoredAfter, orchRestored, h1, h2, h3, h4, h5, h6, h7, h8]
  · rfl
  · rfl

/-- Witness for C6 at a concrete configuration. -/
theorem C6_orchestration_restored_witness :
    sampleTrainer.fastDevRun = false ∧
      restoredAfter sampleTrainer
        (scale_batch_size ⟨.power, 3, 2, 25⟩ (thresholdOracle 255 id id) 0
          (mkFinderState ⟨.power, 3, 2, 25⟩) sampleTrainer) = true :=
  ⟨rfl, C6_orchestration_restored _ _ _ _ _ rfl⟩

/-- C7: For every valid configuration, the checkpoint artifact saved before
the search is restored into the live model/optimizer state and removed before
`scale_batch_size` returns: after a normal completion the artifact does not
exist and the weights equal the pre-search weights. -/
theorem C7_checkpoint_restored_removed (cfg : FinderCfg) (o : TrialOracle)
    (fuel : Nat) (f : FinderState) (t : Trainer)
    (hfd : t.fastDevRun = false) :
    ckptAfter t (scale_batch_size cfg o fuel f t) = true := by
  rcases hsc : scale_batch_size cfg o fuel f t with ⟨t', f'⟩ | ⟨t', f'⟩ |
    ⟨t', f'⟩ | ⟨t'⟩
  · obtain ⟨_, _, _, _, _, _, _, _, h9, h10⟩ :=
      scale_final_facts cfg o fuel f t hfd t' f' (Or.inl hsc)
    simp [ckptAfter, ckptCleared, h9, h10]
  · obtain ⟨_, _, _, _, _, _, _, _, h9, h10⟩ :=
      scale_final_facts cfg o fuel f t hfd t' f' (Or.inr hsc)
    simp [ckptAfter, ckptCleared, h9, h10]
  · rfl
  · rfl

/-- Witness for C7 at a concrete configuration. -/
theorem C7_checkpoint_restored_removed_witness :
    sampleTrainer.fastDevRun = false ∧
      ckptAfter sampleTrainer
        (scale_batch_size ⟨.power, 3, 2, 25⟩ (thresholdOracle 255 id id) 0
          (mkFinderState ⟨.power, 3, 2, 25⟩) sampleTrainer) = true :=
  ⟨rfl, C7_checkpoint_restored_removed _ _ _ _ _ rfl⟩

/-- C2 counterexample: with a pre-search callback list `[3]`, no pre-existing
checkpoint, and an oracle whose first trial fails fatally, the trainer state
on the exception-propagation path has an empty callback list (the trial
configuration) and the checkpoint artifact still exists — restoration did not
run, contradicting the claim that it runs unconditionally. -/
theorem C2_counterexample :
    (fatalTrainer
        (scale_batch_size ⟨.power, 3, 2, 25⟩ fatalOracle 40
          (mkFinderState ⟨.power, 3, 2, 25⟩) sampleTrainer)).map
      Trainer.callbacks = some [] ∧
    (fatalTrainer
        (scale_batch_size ⟨.power, 3, 2, 25⟩ fatalOracle 40
          (mkFinderState ⟨.power, 3, 2, 25⟩) sampleTrainer)).map
      Trainer.ckpt = some (some 100) ∧
    sampleTrainer.callbacks = [3] ∧ sampleTrainer.ckpt = none := by
  decide

/-- C2 amended: a fatal (non-OOM) trial failure is re-raised out of
`scale_batch_size` WITHOUT any restoration (the source has no try/finally):
on the propagation path the orchestration state is still in its trial
configuration (callbacks cleared) and the checkpoint artifact still exists. -/
theorem C2_fatal_skips_restoration (cfg : FinderCfg) (o : TrialOracle)
    (fuel : Nat) (f : FinderState) (t : Trainer)
    (hfd : t.fastDevRun = false) (hfatal : ∀ bs, o.outcome bs = .fatal)
    (hmt : 1 ≤ cfg.maxTrials) (hfuel : 1 ≤ fuel) :
    ∃ t2, scale_batch_size cfg o fuel f t = .fatalError t2 f ∧
      t2.callbacks = [] ∧ t2.ckpt = some t.modelWeights := by
  obtain ⟨m, hm⟩ : ∃ m, cfg.maxTrials = m + 1 := ⟨cfg.maxTrials - 1, by omega⟩
  obtain ⟨k, hk⟩ : ∃ k, fuel = k + 1 := ⟨fuel - 1, by omega⟩
  simp only [scale_batch_size]
  rw [if_neg (by simp [hfd])]
  set t1 : Trainer := { t with ckpt := some t.modelWeights } with ht1
  set d := _dump_params t1 with hd
  set t2 := _reset_params cfg t1 with ht2
  set t3 := setPB false t2 with ht3
  set adj0 := _adjust_batch_size t3 1 (some cfg.initVal) with hadj0
  have hloop :
      (match cfg.mode with
      | SearchMode.power => _run_power_scaling cfg o d adj0.1 adj0.2.1
      | SearchMode.binsearch =>
          _run_binary_scaling cfg o d fuel adj0.1 adj0.2.1) =
        .fatal (_try_loop_run o d (_collect_garbage adj0.1)).1 := by
    cases hmode : cfg.mode
    · show _run_power_scaling cfg o d adj0.1 adj0.2.1 = _
      unfold _run_power_scaling
      rw [hm]
      exact powerLoop_fatal o d hfatal m adj0.1 adj0.2.1
    · show _run_binary_scaling cfg o d fuel adj0.1 adj0.2.1 = _
      unfold _run_binary_scaling
      rw [hk]
      exact binLoop_fatal cfg o d hfatal k adj0.1 adj0.2.1 1 none 0
  rw [hloop]
  refine ⟨_, rfl, ?_, ?_⟩
  · have hframe : LoopFrame t3 (_try_loop_run o d (_collect_garbage adj0.1)).1 := by
      have ha : LoopFrame t3 adj0.1 := by
        rw [hadj0]; exact frame_adjust t3 1 (some cfg.initVal)
      exact (ha.trans (frame_gc adj0.1)).trans
        (frame_try o d (_collect_garbage adj0.1))
    rw [hframe.callbacks, ht3]
    obtain ⟨_, _, q3, _⟩ := setPB_facts false t2
    rw [q3, ht2]
    exact (reset_params_facts cfg t1).2.1
  · have hframe : LoopFrame t3 (_try_loop_run o d (_collect_garbage adj0.1)).1 := by
      have ha : LoopFrame t3 adj0.1 := by
        rw [hadj0]; exact frame_adjust t3 1 (some cfg.initVal)
      exact (ha.trans (frame_gc adj0.1)).trans
        (frame_try o d (_collect_garbage adj0.1))
    rw [hframe.ckpt, ht3]
    obtain ⟨_, _, _, _, _, _, _, _, _, _, _, _, q13, _⟩ := setPB_facts false t2
    rw [q13, ht2]
    rw [(reset_params_facts cfg t1).2.2.2.2.2.2.2.2.2.2.2.2.2.1, ht1]

/-- Witness for the amended C2 at a concrete configuration. -/
theorem C2_fatal_skips_restoration_witness :
    sampleTrainer.fastDevRun = false ∧
      (∀ bs, fatalOracle.outcome bs = TrialOutcome.fatal) ∧
      1 ≤ (25 : Nat) ∧ 1 ≤ (40 : Nat) ∧
      ∃ t2,
        scale_batch_size ⟨.power, 3, 2, 25⟩ fatalOracle 40
            (mkFinderState ⟨.power, 3, 2, 25⟩) sampleTrainer =
          .fatalError t2 (mkFinderState ⟨.power, 3, 2, 25⟩) ∧
        t2.callbacks = [] ∧ t2.ckpt = some sampleTrainer.modelWeights :=
  ⟨rfl, fun _ => rfl, by decide, by decide,
    C2_fatal_skips_restoration _ _ _ _ _ rfl (fun _ => rfl) (by decide)
      (by decide)⟩

/-- C8: If the configured hyperparameter field is absent from both the model
and its hyperparameters namespace, `setup` raises a configuration error, and
`scale_batch_size` never runs: no trial executes and no checkpoint artifact
is created (the rejected result carries the untouched trainer). -/
theorem C8_missing_field_rejected (cfg : FinderCfg) (o : TrialOracle)
    (fuel : Nat) (f : FinderState) (c : SetupCtx) (stage : Option TrainerFn)
    (t : Trainer) (h : lightning_hasattr t.model = false) :
    ∃ e, setupAndScale cfg o fuel f c stage t = .rejected e t := by
  unfold setupAndScale setup
  by_cases h1 : c.isDistributed = true
  · rw [if_pos h1]; exact ⟨_, rfl⟩
  · rw [if_neg h1]
    by_cases h2 : (!c.trainDLFromModule) = true
    · rw [if_pos h2]; exact ⟨_, rfl⟩
    · rw [if_neg h2]
      by_cases h3 : stage ≠ some TrainerFn.fit ∧ 1 < c.numStageDataloaders
      · rw [if_pos h3]; exact ⟨_, rfl⟩
      · rw [if_neg h3]
        rw [if_pos (show (!lightning_hasattr t.model) = true by rw [h]; rfl)]
        exact ⟨_, rfl⟩

/-- Witness for C8 at a concrete configuration whose model lacks the field. -/
theorem C8_missing_field_rejected_witness :
    lightning_hasattr ({ sampleTrainer with
        model := ⟨none, none⟩ } : Trainer).model = false ∧
      ∃ e,
        setupAndScale ⟨.power, 3, 2, 25⟩ fatalOracle 40
            (mkFinderState ⟨.power, 3, 2, 25⟩) ⟨false, true, 1⟩ (some .fit)
            { sampleTrainer with model := ⟨none, none⟩ } =
          .rejected e { sampleTrainer with model := ⟨none, none⟩ } :=
  ⟨rfl, C8_missing_field_rejected _ _ _ _ _ _ _ rfl⟩

/-- C9: calling the adjuster twice in succession with the same explicit value
(and unchanged dataloaders — the adjuster itself never touches them) returns
`changed = false` on the second call. -/
theorem C9_adjuster_idempotent (t : Trainer) (f1 f2 : ℚ) (v : Nat)
    (hattr : lightning_hasattr t.model = true) :
    (_adjust_batch_size (_adjust_batch_size t f1 (some v)).1 f2
      (some v)).2.2 = false := by
  have h1 := adjust_getBS t f1 (some v) hattr
  have h2 :
      (_adjust_batch_size (_adjust_batch_size t f1 (some v)).1 f2
        (some v)).2.1 = (_adjust_batch_size t f1 (some v)).2.1 := rfl
  rw [adjust_changed_eq, h2, h1]
  simp

/-- Witness for C9 at a concrete configuration. -/
theorem C9_adjuster_idempotent_witness :
    lightning_hasattr sampleTrainer.model = true ∧
      (_adjust_batch_size (_adjust_batch_size sampleTrainer 1 (some 64)).1 1
        (some 64)).2.2 = false :=
  ⟨rfl, C9_adjuster_idempotent _ _ _ _ rfl⟩

/-- C10: `on_validation_start` performs no search and mutates no state
exactly when the trainer is sanity-checking or its function is not
`validate` (the early `return` is modelled by `none`); hence no search runs
during sanity checking or during the validation embedded in a fit. -/
theorem C10_validation_guard (cfg : FinderCfg) (o : TrialOracle) (fuel : Nat)
    (f : FinderState) (t : Trainer) :
    on_validation_start cfg o fuel f t = none ↔
      (t.sanityChecking = true ∨ t.fn ≠ TrainerFn.validate) := by
  unfold on_validation_start
  by_cases h : t.sanityChecking = true ∨ t.fn ≠ TrainerFn.validate
  · rw [if_pos h]
    exact iff_of_true rfl h
  · rw [if_neg h]
    exact iff_of_false (by simp) h

/-- C3: for every adjuster call: with an explicit value the new value is that
value, otherwise `⌊currentValue * factor⌋`; if the phase-relevant
dataloader's length is knowable across ranks and exceeded by the new value,
the result is clamped by the dataset length (otherwise kept); the new value
is written into the model's hyperparameter store; and the returned flag is
`changed = (newValue ≠ currentValue)`. -/
theorem C3_adjuster_contract (t : Trainer) (factor : ℚ) (value : Option Nat)
    (hattr : lightning_hasattr t.model = true) (hf : 0 ≤ factor) :
    (∀ v, value = some v →
      ((relevantDL t).hasLenAllRanks = true ∧ dlLen (relevantDL t) < v →
        (_adjust_batch_size t factor value).2.1 =
          min v (relevantDL t).datasetLen) ∧
      (¬((relevantDL t).hasLenAllRanks = true ∧ dlLen (relevantDL t) < v) →
        (_adjust_batch_size t factor value).2.1 = v)) ∧
    (value = none →
      ((relevantDL t).hasLenAllRanks = true ∧
          dlLen (relevantDL t) < (⌊(getBS t.model : ℚ) * factor⌋).toNat →
        (_adjust_batch_size t factor value).2.1 =
          min (⌊(getBS t.model : ℚ) * factor⌋).toNat
            (relevantDL t).datasetLen) ∧
      (¬((relevantDL t).hasLenAllRanks = true ∧
          dlLen (relevantDL t) < (⌊(getBS t.model : ℚ) * factor⌋).toNat) →
        (_adjust_batch_size t factor value).2.1 =
          (⌊(getBS t.model : ℚ) * factor⌋).toNat)) ∧
    getBS (_adjust_batch_size t factor value).1.model =
      (_adjust_batch_size t factor value).2.1 ∧
    ((_adjust_batch_size t factor value).2.2 = true ↔
      (_adjust_batch_size t factor value).2.1 ≠ getBS t.model) := by
  refine ⟨?_, ?_, adjust_getBS t factor value hattr, ?_⟩
  · rintro v rfl
    rw [adjust_newSize_eq]
    exact clamp_cases (relevantDL t) v
  · rintro rfl
    have heq : pyIntMul (getBS t.model) factor =
        (⌊(getBS t.model : ℚ) * factor⌋).toNat := pyIntMul_eq_floor _ _ hf
    rw [adjust_newSize_eq]
    dsimp only
    rw [← heq]
    exact clamp_cases (relevantDL t) _
  · rw [adjust_changed_eq]
    simp

/-- Witness for C3 at a concrete configuration (factor 2, no explicit
value). -/
theorem C3_adjuster_contract_witness :
    lightning_hasattr sampleTrainer.model = true ∧ ((0 : ℚ) ≤ 2) ∧
      ((_adjust_batch_size sampleTrainer 2 none).2.2 = true ↔
        (_adjust_batch_size sampleTrainer 2 none).2.1 ≠
          getBS sampleTrainer.model) :=
  ⟨rfl, by norm_num,
    (C3_adjuster_contract sampleTrainer 2 none rfl (by norm_num)).2.2.2⟩

/-- An oracle whose every trial succeeds: no OOM is ever simulated. -/
def noOomOracle : TrialOracle :=
  { outcome := fun _ => .success, stepLoop := id, stepWeights := id }

/-- A dataloader over a dataset of length 1000 with a knowable length
(`len(dataloader) = 1000 / batch`, never exceeding the dataset length). -/
def dl1000 : Dataloader :=
  { hasLenAllRanks := true, datasetLen := 1000,
    lenFn := fun bs => 1000 / max bs 1, builtBS := 16 }

/-- The pre-search trainer of spec Scenario A (fit phase, dataset length
1000). -/
def trainerScenA : Trainer :=
  { sampleTrainer with trainDL := dl1000, evalDL := dl1000 }

/-- C1 (code-bug evidence): in growth (power) mode with `initVal = 2` and a
simulated OOM first occurring at batch size 256 (all smaller trials
succeed), the search returns 256 — the very size whose trial raised OOM —
because the OOM handler re-applies the adjuster with the default
`factor=1.0` on the already-doubled stored value instead of reverting to the
last successful one; the claim (and the callback's own docstring: the
largest size that does not OOM) requires 128. -/
theorem C1_power_oom_returns_failed_size :
    outcomeOptimal
      (scale_batch_size ⟨.power, 3, 2, 25⟩ (thresholdOracle 255 id id) 0
        (mkFinderState ⟨.power, 3, 2, 25⟩) sampleTrainer) = some 256 ∧
    (256 : Nat) ≠ 128 := by
  decide

/-- Doubling with a fuel bound: keep doubling `v` while the double stays
`≤ L`. -/
def pow2ScaleSteps : Nat → Nat → Nat → Nat
  | 0, v, _ => v
  | fuel + 1, v, L => if v * 2 ≤ L then pow2ScaleSteps fuel (v * 2) L else v

/-- Follows the spec's words, for comparison with the code: the largest
power-of-two-scaled value starting from `init` that is `≤ L` (for
`1 ≤ init ≤ L`; `L` doublings always suffice). -/
def largestPow2ScaledLe (init L : Nat) : Nat :=
  pow2ScaleSteps L init L

/-- C5 counterexample: for Scenario A (`initVal = 2`, growth mode,
`maxTrials = 25`, dataset length 1000, no OOM) the code returns 1000 — the
dataset-length-clamped ceiling, exactly as the claim's own concrete instance
says — which is NOT the largest power-of-two-scaled value `≤ 1000` (that is
512), so the claim's general sentence fails. -/
theorem C5_counterexample :
    outcomeOptimal
      (scale_batch_size ⟨.power, 3, 2, 25⟩ noOomOracle 0
        (mkFinderState ⟨.power, 3, 2, 25⟩) trainerScenA) = some 1000 ∧
    largestPow2ScaledLe 2 1000 = 512 ∧ (1000 : Nat) ≠ 512 := by
  decide

/-- Power-mode growth with an all-success oracle: starting from a stored
size `ns` with `1 ≤ ns ≤ L` and enough trials (`L ≤ ns * 2 ^ n`), the loop
doubles with clamping (`min (2 ns) L`) until the adjuster reports no change
and returns exactly the dataset length `L`. -/
theorem powerLoop_no_oom (o : TrialOracle) (d : DumpedParams) (L : Nat)
    (hsucc : ∀ bs, o.outcome bs = .success) :
    ∀ (n : Nat) (t : Trainer) (ns : Nat),
      lightning_hasattr t.model = true →
      getBS t.model = ns →
      1 ≤ ns → ns ≤ L → L ≤ ns * 2 ^ n →
      (relevantDL t).hasLenAllRanks = true →
      (relevantDL t).datasetLen = L →
      (∀ bs, (relevantDL t).lenFn bs ≤ L) →
      ∃ t2, powerScalingLoop o d n t ns = .ok t2 L
  | 0, t, ns => by
    intro _ _ _ h4 h5 _ _ _
    refine ⟨t, ?_⟩
    have hnsL : ns = L := le_antisymm h4 (by simpa using h5)
    rw [hnsL]
    rfl
  | n + 1, t, ns => by
    intro h1 h2 h3 h4 h5 hL hds hlen
    have houtc :
        (_try_loop_run o d (_collect_garbage t)).2 = TrialOutcome.success := by
      have hr : (_try_loop_run o d (_collect_garbage t)).2 =
          o.outcome (getBS (_collect_garbage t).model) := rfl
      rw [hr, gc_model]
      exact hsucc _
    simp only [powerScalingLoop, houtc]
    set TR := (_try_loop_run o d (_collect_garbage t)).1 with hTR
    have hTRmodel : TR.model = t.model := by
      rw [hTR]
      show (_collect_garbage t).model = t.model
      exact gc_model t
    have hTRframe : LoopFrame t TR := by
      rw [hTR]
      exact (frame_gc t).trans (frame_try o d _)
    obtain ⟨hsL, hsD, hsF⟩ := relevantDL_static hTRframe
    have hattrTR : lightning_hasattr TR.model = true := by
      rw [hTRmodel]; exact h1
    have hgetTR : getBS TR.model = ns := by rw [hTRmodel]; exact h2
    have hlenTR : dlLen (relevantDL TR) ≤ (relevantDL TR).datasetLen := by
      unfold dlLen
      rw [hsF, hsD, hds]
      exact hlen _
    have hval : (_adjust_batch_size TR 2 none).2.1 = min (2 * ns) L := by
      rw [adjust_min_eq TR 2 none (by rw [hsL]; exact hL) hlenTR]
      dsimp only
      rw [hgetTR, pyIntMul_two, hsD, hds]
    have hchg : (_adjust_batch_size TR 2 none).2.2 =
        decide ((_adjust_batch_size TR 2 none).2.1 ≠ ns) := by
      rw [adjust_changed_eq, hgetTR]
    by_cases hns : ns = L
    · have hvL : (_adjust_batch_size TR 2 none).2.1 = L := by
        rw [hval, hns]
        exact Nat.min_eq_right (by omega)
      have hfalse : (_adjust_batch_size TR 2 none).2.2 = false := by
        rw [hchg, hvL, hns]
        simp
      refine ⟨(_adjust_batch_size TR 2 none).1, ?_⟩
      rw [hfalse]
      simp only [Bool.false_eq_true, if_false]
      rw [hvL]
    · have hlt : ns < L := lt_of_le_of_ne h4 hns
      have hge : ns + 1 ≤ min (2 * ns) L := le_min (by omega) (by omega)
      have htrue : (_adjust_batch_size TR 2 none).2.2 = true := by
        rw [hchg, hval]
        simp only [decide_eq_true_eq]
        omega
      set t4 := _reset_dataloaders (_adjust_batch_size TR 2 none).1 with ht4
      have ht4model : t4.model = (_adjust_batch_size TR 2 none).1.model := by
        rw [ht4]; exact reset_model_eq _
      have hframe4 : LoopFrame t t4 := by
        rw [ht4]
        exact (hTRframe.trans (frame_adjust TR 2 none)).trans (frame_reset _)
      obtain ⟨h4L, h4D, h4F⟩ := relevantDL_static hframe4
      obtain ⟨t2, hrec⟩ := powerLoop_no_oom o d L hsucc n t4
        ((_adjust_batch_size TR 2 none).2.1)
        (by rw [ht4model, adjust_hasattr]; exact hattrTR)
        (by rw [ht4model]; exact adjust_getBS TR 2 none hattrTR)
        (by rw [hval]; omega)
        (by rw [hval]; exact Nat.min_le_right _ _)
        (by
          rw [hval]
          rcases Nat.le_total (2 * ns) L with hc | hc
          · rw [Nat.min_eq_left hc]
            calc L ≤ ns * 2 ^ (n + 1) := h5
              _ = 2 * ns * 2 ^ n := by ring
          · rw [Nat.min_eq_right hc]
            exact Nat.le_mul_of_pos_right L (Nat.pos_pow_of_pos n (by omega)))
        (by rw [h4L]; exact hL)
        (by rw [h4D]; exact hds)
        (by intro bs; rw [h4F]; exact hlen bs)
      refine ⟨t2, ?_⟩
      rw [htrue]
      simp only [if_true]
      exact hrec

/-- C5 amended: in growth (power) mode over a dataset of length `L` with a
knowable dataloader length and no OOM ever triggered, the search terminates
when the adjuster reports no change (the clamped ceiling is reached) and the
result equals the dataset length `L` itself — the `min`-clamped growth
ceiling (e.g. 1000 for Scenario A), not the largest power-of-two-scaled
value. -/
theorem C5_growth_reaches_dataset_len (cfg : FinderCfg) (o : TrialOracle)
    (fuel : Nat) (f : FinderState) (t : Trainer) (L : Nat)
    (hmode : cfg.mode = .power) (hfd : t.fastDevRun = false)
    (hee : f.earlyExit = false)
    (hsucc : ∀ bs, o.outcome bs = .success)
    (hattr : lightning_hasattr t.model = true)
    (hL : (relevantDL t).hasLenAllRanks = true)
    (hds : (relevantDL t).datasetLen = L)
    (hlen : ∀ bs, (relevantDL t).lenFn bs ≤ L)
    (hinit1 : 1 ≤ cfg.initVal) (hinitL : cfg.initVal ≤ L)
    (hmax : L ≤ cfg.initVal * 2 ^ cfg.maxTrials) :
    outcomeOptimal (scale_batch_size cfg o fuel f t) = some L := by
  simp only [scale_batch_size]
  rw [if_neg (by simp [hfd])]
  set t1 : Trainer := { t with ckpt := some t.modelWeights } with ht1
  set d := _dump_params t1 with hd
  set t2 := _reset_params cfg t1 with ht2
  set t3 := setPB false t2 with ht3
  set adj0 := _adjust_batch_size t3 1 (some cfg.initVal) with hadj0
  have hdl1 : relevantDL t1 = relevantDL t := by
    refine relevantDL_congr ?_ ?_ ?_ <;> rw [ht1]
  have hdl2 : relevantDL t2 = relevantDL t1 := by
    obtain ⟨s1, _, _, _, s5, s6, _⟩ := reset_params_facts cfg t1
    rw [ht2]
    exact relevantDL_congr s1 s5 s6
  have hdl3 : relevantDL t3 = relevantDL t := by
    obtain ⟨q1, _, _, _, _, _, _, _, _, _, q11, q12, _⟩ := setPB_facts false t2
    rw [ht3, relevantDL_congr q1 q11 q12, hdl2, hdl1]
  have hm3 : t3.model = t.model := by
    obtain ⟨_, _, _, _, _, _, _, _, _, q10, _⟩ := setPB_facts false t2
    rw [ht3, q10, ht2, (reset_params_facts cfg t1).2.2.2.1, ht1]
  have hattr3 : lightning_hasattr t3.model = true := by rw [hm3]; exact hattr
  have hlen3 : dlLen (relevantDL t3) ≤ (relevantDL t3).datasetLen := by
    rw [hdl3]
    unfold dlLen
    rw [hds]
    exact hlen _
  have hval0 : adj0.2.1 = cfg.initVal := by
    rw [hadj0,
      adjust_min_eq t3 1 (some cfg.initVal) (by rw [hdl3]; exact hL) hlen3]
    dsimp only
    rw [hdl3, hds]
    exact Nat.min_eq_left hinitL
  have hget0 : getBS adj0.1.model = cfg.initVal := by
    rw [hadj0, adjust_getBS t3 1 (some cfg.initVal) hattr3, ← hadj0, hval0]
  have hattr0 : lightning_hasattr adj0.1.model = true := by
    rw [hadj0, adjust_hasattr]
    exact hattr3
  have hdla : relevantDL adj0.1 = relevantDL t := by
    rw [hadj0,
      show relevantDL (_adjust_batch_size t3 1 (some cfg.initVal)).1 =
        relevantDL t3 from relevantDL_congr rfl rfl rfl, hdl3]
  obtain ⟨t5, hloop⟩ := powerLoop_no_oom o d L hsucc cfg.maxTrials adj0.1
    cfg.initVal hattr0 hget0 hinit1 hinitL hmax
    (by rw [hdla]; exact hL) (by rw [hdla]; exact hds)
    (fun bs => by rw [hdla]; exact hlen bs)
  rw [hmode]
  dsimp only
  unfold _run_power_scaling
  rw [hval0, hloop]
  dsimp only [outcomeOptimal]
  rw [if_neg (by simp [hee])]

/-- Witness for the amended C5 at Scenario A (`initVal = 2`, growth mode,
`maxTrials = 25`, dataset length 1000, no OOM): result 1000. -/
theorem C5_growth_reaches_dataset_len_witness :
    (⟨.power, 3, 2, 25⟩ : FinderCfg).mode = .power ∧
    trainerScenA.fastDevRun = false ∧
    (mkFinderState ⟨.power, 3, 2, 25⟩).earlyExit = false ∧
    (∀ bs, noOomOracle.outcome bs = .success) ∧
    lightning_hasattr trainerScenA.model = true ∧
    (relevantDL trainerScenA).hasLenAllRanks = true ∧
    (relevantDL trainerScenA).datasetLen = 1000 ∧
    (∀ bs, (relevantDL trainerScenA).lenFn bs ≤ 1000) ∧
    1 ≤ (⟨.power, 3, 2, 25⟩ : FinderCfg).initVal ∧
    (⟨.power, 3, 2, 25⟩ : FinderCfg).initVal ≤ 1000 ∧
    1000 ≤ (⟨.power, 3, 2, 25⟩ : FinderCfg).initVal *
      2 ^ (⟨.power, 3, 2, 25⟩ : FinderCfg).maxTrials ∧
    outcomeOptimal
      (scale_batch_size ⟨.power, 3, 2, 25⟩ noOomOracle 0
        (mkFinderState ⟨.power, 3, 2, 25⟩) trainerScenA) = some 1000 :=
  ⟨rfl, rfl, rfl, fun _ => rfl, rfl, rfl, rfl,
    fun bs => Nat.div_le_self 1000 (max bs 1), by decide, by decide,
    by decide,
    C5_growth_reaches_dataset_len _ _ _ _ _ _ rfl rfl rfl (fun _ => rfl) rfl
      rfl rfl (fun bs => Nat.div_le_self 1000 (max bs 1)) (by decide)
      (by decide) (by decide)⟩

/-- Growth-then-bisection with a threshold oracle and `T ≥ 1`: from any loop
state whose stored batch size matches `ns`, whose `low` is at most `T`, and
whose `high` (when set) strictly bounds both `ns` and `low`, the loop
terminates within the potential
`(maxTrials + 1 - count) + (high | max ns (2T) + 1)` and returns a value
`≤ T`.  Each iteration either returns, increments the success count, sets
`high` below the growth bound, or strictly decreases `high`. -/
theorem binLoop_threshold (cfg : FinderCfg) (T : Nat) (g w : Nat → Nat)
    (d : DumpedParams) (hT : 1 ≤ T) :
    ∀ (fuel : Nat) (t : Trainer) (ns low : Nat) (high : Option Nat)
      (count : Nat),
      lightning_hasattr t.model = true →
      getBS t.model = ns →
      low ≤ T →
      count ≤ cfg.maxTrials →
      (∀ h, high = some h → ns < h ∧ low < h) →
      cfg.maxTrials + 1 - count +
          (match high with
          | none => max ns (2 * T) + 1
          | some h => h) < fuel →
      ∃ t2 r,
        binaryScalingLoop cfg (thresholdOracle T g w) d fuel t ns low high
            count = .ok t2 r ∧ r ≤ T
  | 0, t, ns, low, high, count => by
    intro _ _ _ _ _ hphi
    exact absurd hphi (Nat.not_lt_zero _)
  | fuel + 1, t, ns, low, high, count => by
    intro h1 h2 hlow hcount hinv hphi
    have hout :
        (_try_loop_run (thresholdOracle T g w) d (_collect_garbage t)).2 =
          (if T < ns then TrialOutcome.oom else TrialOutcome.success) := by
      have hr :
          (_try_loop_run (thresholdOracle T g w) d (_collect_garbage t)).2 =
            (thresholdOracle T g w).outcome
              (getBS (_collect_garbage t).model) := rfl
      rw [hr, gc_model, h2]
      rfl
    by_cases hoom : T < ns
    · -- OOM at ns: high becomes ns, midpoint applied, maybe break
      have houto :
          (_try_loop_run (thresholdOracle T g w) d (_collect_garbage t)).2 =
            TrialOutcome.oom := by
        rw [hout, if_pos hoom]
      simp only [binaryScalingLoop, houto]
      set GC := _collect_garbage
        (_try_loop_run (thresholdOracle T g w) d (_collect_garbage t)).1
        with hGC
      have hGCm : GC.model = t.model := by
        rw [hGC, gc_model]
        show (_collect_garbage t).model = t.model
        exact gc_model t
      have hGCattr : lightning_hasattr GC.model = true := by
        rw [hGCm]; exact h1
      have hadjle :
          (_adjust_batch_size GC 1 (some ((ns + low) / 2))).2.1 ≤
            (ns + low) / 2 := adjust_le_value GC 1 ((ns + low) / 2)
      by_cases hconv : ns - low ≤ 1
      · rw [if_pos hconv]
        refine ⟨_, _, rfl, ?_⟩
        omega
      · rw [if_neg hconv]
        have hlt : low < ns := by omega
        have hmid2 : (ns + low) / 2 < ns := by omega
        by_cases hch :
            (_adjust_batch_size GC 1 (some ((ns + low) / 2))).2.2 = true
        · rw [if_pos hch]
          obtain ⟨t2, r, hrec, hrle⟩ := binLoop_threshold cfg T g w d hT fuel
            (_reset_dataloaders
              (_adjust_batch_size GC 1 (some ((ns + low) / 2))).1)
            ((_adjust_batch_size GC 1 (some ((ns + low) / 2))).2.1) low
            (some ns) count
            (by rw [reset_model_eq, adjust_hasattr]; exact hGCattr)
            (by rw [reset_model_eq]
                exact adjust_getBS GC 1 (some ((ns + low) / 2)) hGCattr)
            hlow hcount
            (by
              intro h' heq
              injection heq with heq2
              subst heq2
              exact ⟨lt_of_le_of_lt hadjle hmid2, hlt⟩)
            (by
              show cfg.maxTrials + 1 - count + ns < fuel
              rcases high with _ | hOld
              · have hphi' : cfg.maxTrials + 1 - count +
                    (max ns (2 * T) + 1) < fuel + 1 := hphi
                have hm := le_max_left ns (2 * T)
                omega
              · obtain ⟨hnsh, _⟩ := hinv hOld rfl
                have hphi' : cfg.maxTrials + 1 - count + hOld < fuel + 1 :=
                  hphi
                omega)
          exact ⟨t2, r, hrec, hrle⟩
        · rw [if_neg hch]
          obtain ⟨t2, r, hrec, hrle⟩ := binLoop_threshold cfg T g w d hT fuel
            (_adjust_batch_size GC 1 (some ((ns + low) / 2))).1
            ((_adjust_batch_size GC 1 (some ((ns + low) / 2))).2.1) low
            (some ns) count
            (by rw [adjust_hasattr]; exact hGCattr)
            (adjust_getBS GC 1 (some ((ns + low) / 2)) hGCattr)
            hlow hcount
            (by
              intro h' heq
              injection heq with heq2
              subst heq2
              exact ⟨lt_of_le_of_lt hadjle hmid2, hlt⟩)
            (by
              show cfg.maxTrials + 1 - count + ns < fuel
              rcases high with _ | hOld
              · have hphi' : cfg.maxTrials + 1 - count +
                    (max ns (2 * T) + 1) < fuel + 1 := hphi
                have hm := le_max_left ns (2 * T)
                omega
              · obtain ⟨hnsh, _⟩ := hinv hOld rfl
                have hphi' : cfg.maxTrials + 1 - count + hOld < fuel + 1 :=
                  hphi
                omega)
          exact ⟨t2, r, hrec, hrle⟩
    · -- success at ns ≤ T
      have houts :
          (_try_loop_run (thresholdOracle T g w) d (_collect_garbage t)).2 =
            TrialOutcome.success := by
        rw [hout, if_neg hoom]
      have hnsT : ns ≤ T := Nat.le_of_not_lt hoom
      simp only [binaryScalingLoop, houts]
      set TR := (_try_loop_run (thresholdOracle T g w) d
        (_collect_garbage t)).1 with hTR
      have hTRm : TR.model = t.model := by
        rw [hTR]
        show (_collect_garbage t).model = t.model
        exact gc_model t
      have hTRattr : lightning_hasattr TR.model = true := by
        rw [hTRm]; exact h1
      by_cases hcnt : cfg.maxTrials < count + 1
      · rw [if_pos hcnt]
        exact ⟨TR, ns, rfl, hnsT⟩
      · rw [if_neg hcnt]
        rcases hhigh : high with _ | h
        · -- growth phase: high unset
          rw [if_neg (by decide : ¬(highTruthy none = true))]
          have hadjle : (_adjust_batch_size TR 2 none).2.1 ≤ 2 * ns := by
            have hd2 := adjust_le_double TR
            rw [hTRm, h2] at hd2
            exact hd2
          by_cases hch : (_adjust_batch_size TR 2 none).2.2 = true
          · rw [if_pos hch]
            obtain ⟨t2, r, hrec, hrle⟩ := binLoop_threshold cfg T g w d hT
              fuel
              (_reset_dataloaders (_adjust_batch_size TR 2 none).1)
              ((_adjust_batch_size TR 2 none).2.1) ns none (count + 1)
              (by rw [reset_model_eq, adjust_hasattr]; exact hTRattr)
              (by rw [reset_model_eq]
                  exact adjust_getBS TR 2 none hTRattr)
              hnsT (by omega)
              (by intro h' heq; exact absurd heq (by simp))
              (by
                show cfg.maxTrials + 1 - (count + 1) +
                  (max ((_adjust_batch_size TR 2 none).2.1) (2 * T) + 1) <
                    fuel
                subst hhigh
                have hphi' : cfg.maxTrials + 1 - count +
                    (max ns (2 * T) + 1) < fuel + 1 := hphi
                have hA : 2 * T ≤ max ns (2 * T) := le_max_right _ _
                have h2T : (_adjust_batch_size TR 2 none).2.1 ≤ 2 * T := by
                  omega
                rw [Nat.max_eq_right h2T]
                omega)
            exact ⟨t2, r, hrec, hrle⟩
          · rw [if_neg hch]
            refine ⟨_, _, rfl, ?_⟩
            have hf : (_adjust_batch_size TR 2 none).2.2 = false := by
              cases hb : (_adjust_batch_size TR 2 none).2.2
              · rfl
              · exact absurd hb hch
            have heq := adjust_changed_false TR 2 none hf
            rw [heq, hTRm, h2]
            exact hnsT
        · -- bisection phase: high = some h
          obtain ⟨hnsh, hlowh⟩ := hinv h (by rw [hhigh])
          have htr : highTruthy (some h) = true := by
            simp only [highTruthy, bne_iff_ne, ne_eq, decide_eq_true_eq]
            omega
          rw [if_pos htr]
          simp only [Option.getD]
          by_cases hconv : h - ns ≤ 1
          · rw [if_pos hconv]
            exact ⟨TR, ns, rfl, hnsT⟩
          · rw [if_neg hconv]
            have hmid2 : (h + ns) / 2 < h := by omega
            have hadjle :
                (_adjust_batch_size TR 1 (some ((h + ns) / 2))).2.1 ≤
                  (h + ns) / 2 := adjust_le_value TR 1 ((h + ns) / 2)
            by_cases hch :
                (_adjust_batch_size TR 1 (some ((h + ns) / 2))).2.2 = true
            · rw [if_pos hch]
              obtain ⟨t2, r, hrec, hrle⟩ := binLoop_threshold cfg T g w d hT
                fuel
                (_reset_dataloaders
                  (_adjust_batch_size TR 1 (some ((h + ns) / 2))).1)
                ((_adjust_batch_size TR 1 (some ((h + ns) / 2))).2.1) ns
                (some h) (count + 1)
                (by rw [reset_model_eq, adjust_hasattr]; exact hTRattr)
                (by rw [reset_model_eq]
                    exact adjust_getBS TR 1 (some ((h + ns) / 2)) hTRattr)
                hnsT (by omega)
                (by
                  intro h' heq
                  injection heq with heq2
                  subst heq2
                  exact ⟨lt_of_le_of_lt hadjle hmid2, hnsh⟩)
                (by
                  show cfg.maxTrials + 1 - (count + 1) + h < fuel
                  subst hhigh
                  have hphi' : cfg.maxTrials + 1 - count + h < fuel + 1 :=
                    hphi
                  omega)
              exact ⟨t2, r, hrec, hrle⟩
            · rw [if_neg hch]
              refine ⟨_, _, rfl, ?_⟩
              have hf :
                  (_adjust_batch_size TR 1 (some ((h + ns) / 2))).2.2 =
                    false := by
                cases hb : (_adjust_batch_size TR 1 (some ((h + ns) / 2))).2.2
                · rfl
                · exact absurd hb hch
              have heq := adjust_changed_false TR 1 (some ((h + ns) / 2)) hf
              rw [heq, hTRm, h2]
              exact hnsT

/-- C4 counterexample: at threshold `T = 0` (every trial raises OOM) the
binsearch run converges to 1 — the loop applies the midpoint `(2+1)/2 = 1`
and breaks with `high - low ≤ 1` — so the claimed bound `r ≤ T` fails; the
claim's universal quantification over every threshold `T` is therefore
false as stated. -/
theorem C4_counterexample :
    outcomeOptimal
      (scale_batch_size ⟨.binsearch, 3, 2, 25⟩ (thresholdOracle 0 id id) 40
        (mkFinderState ⟨.binsearch, 3, 2, 25⟩) sampleTrainer) = some 1 ∧
    ¬((1 : Nat) ≤ 0) := by
  decide

/-- C4 amended: in growth-then-bisection mode with a synthetic OOM threshold
`T ≥ 1` (trials at sizes `> T` raise OOM, at sizes `≤ T` succeed), the
search terminates — the bisection break fires once `high - low ≤ 1`, the
trial budget bounds the successes, and `high` strictly decreases on each
OOM, all within the stated fuel bound — and the returned result `r`
satisfies `r ≤ T` (this covers the no-OOM case, where `r` is the
growth-phase value: every trialled value succeeded, so it is `≤ T`). -/
theorem C4_binsearch_result_bounded (cfg : FinderCfg) (g w : Nat → Nat)
    (fuel : Nat) (f : FinderState) (t : Trainer) (T : Nat)
    (hmode : cfg.mode = .binsearch) (hfd : t.fastDevRun = false)
    (hee : f.earlyExit = false) (hT : 1 ≤ T)
    (hattr : lightning_hasattr t.model = true)
    (hfuel : cfg.maxTrials + cfg.initVal + 2 * T + 3 ≤ fuel) :
    ∃ r,
      outcomeOptimal
          (scale_batch_size cfg (thresholdOracle T g w) fuel f t) = some r ∧
        r ≤ T := by
  simp only [scale_batch_size]
  rw [if_neg (by simp [hfd])]
  set t1 : Trainer := { t with ckpt := some t.modelWeights } with ht1
  set d := _dump_params t1 with hd
  set t2 := _reset_params cfg t1 with ht2
  set t3 := setPB false t2 with ht3
  set adj0 := _adjust_batch_size t3 1 (some cfg.initVal) with hadj0
  have hm3 : t3.model = t.model := by
    obtain ⟨_, _, _, _, _, _, _, _, _, q10, _⟩ := setPB_facts false t2
    rw [ht3, q10, ht2, (reset_params_facts cfg t1).2.2.2.1, ht1]
  have hattr3 : lightning_hasattr t3.model = true := by rw [hm3]; exact hattr
  have hattr0 : lightning_hasattr adj0.1.model = true := by
    rw [hadj0, adjust_hasattr]
    exact hattr3
  have hget0 : getBS adj0.1.model = adj0.2.1 := by
    rw [hadj0]
    exact adjust_getBS t3 1 (some cfg.initVal) hattr3
  have hle0 : adj0.2.1 ≤ cfg.initVal := by
    rw [hadj0]
    exact adjust_le_value t3 1 cfg.initVal
  obtain ⟨t5, r, hloop, hrT⟩ := binLoop_threshold cfg T g w d hT fuel adj0.1
    adj0.2.1 1 none 0 hattr0 hget0 hT (Nat.zero_le _)
    (by intro h heq; exact absurd heq (by simp))
    (by
      show cfg.maxTrials + 1 - 0 + (max adj0.2.1 (2 * T) + 1) < fuel
      have hmx : max adj0.2.1 (2 * T) ≤ cfg.initVal + 2 * T :=
        max_le (by omega) (by omega)
      omega)
  rw [hmode]
  dsimp only
  unfold _run_binary_scaling
  rw [hloop]
  dsimp only [outcomeOptimal]
  rw [if_neg (by simp [hee])]
  exact ⟨r, rfl, hrT⟩

/-- Witness for the amended C4 at a concrete configuration (`initVal = 2`,
`maxTrials = 25`, threshold 255, fuel 540). -/
theorem C4_binsearch_result_bounded_witness :
    (⟨.binsearch, 3, 2, 25⟩ : FinderCfg).mode = .binsearch ∧
    sampleTrainer.fastDevRun = false ∧
    (mkFinderState ⟨.binsearch, 3, 2, 25⟩).earlyExit = false ∧
    1 ≤ (255 : Nat) ∧
    lightning_hasattr sampleTrainer.model = true ∧
    (⟨.binsearch, 3, 2, 25⟩ : FinderCfg).maxTrials +
        (⟨.binsearch, 3, 2, 25⟩ : FinderCfg).initVal + 2 * 255 + 3 ≤ 540 ∧
    ∃ r,
      outcomeOptimal
          (scale_batch_size ⟨.binsearch, 3, 2, 25⟩ (thresholdOracle 255 id id)
            540 (mkFinderState ⟨.binsearch, 3, 2, 25⟩) sampleTrainer) =
          some r ∧
        r ≤ 255 :=
  ⟨rfl, rfl, rfl, by decide, rfl, by decide,
    C4_binsearch_result_bounded _ _ _ _ _ _ _ rfl rfl rfl (by decide) rfl
      (by decide)⟩

end BatchSizeScaling
